import Mathlib

/-!
Verification development for the `feedgenerator` library
(`feedgenerator/generator.py`): a shallow embedding of the feed data
model, the date/URI formatting utilities and the per-dialect XML
element composition, together with theorems checking the library's
specification against the code.

Conventions of the embedding:
* Python `datetime.datetime` values are modelled by the structure `DT`
  below; a fixed-offset `tzinfo` is modelled by the offset (in minutes)
  that its `utcoffset` method returns (`tz = none` means naive).
* Python exceptions (`KeyError`, `AssertionError`, `AttributeError`,
  `TypeError`) are modelled by `Except String`; the message records the
  kind of exception.
* The external collaborators `force_unicode` and `iri_to_uri`
  (generic text/URI coercion, out of scope per the spec) are modelled
  as the identity on strings.
* The XML writer (`SimplerXMLGenerator`) is modelled by a list of
  `XmlEvent`s, one per writer-contract operation.
-/

/-- Python `datetime.datetime`: date and time fields plus the
`utcoffset` (in minutes) of a fixed-offset `tzinfo`; `tz = none` is a
naive datetime. -/
structure DT where
  year : Nat
  month : Nat
  day : Nat
  hour : Nat
  minute : Nat
  second : Nat
  microsecond : Nat
  tz : Option Int
deriving DecidableEq, Repr

/-- Zero-pad a natural number to two digits (Python `%02d`). -/
def pad2 (n : Nat) : String :=
  if n < 10 then "0" ++ toString n else toString n

/-- Zero-pad a natural number to four digits (Python `%04d` / `%Y`). -/
def pad4 (n : Nat) : String :=
  if n < 10 then "000" ++ toString n
  else if n < 100 then "00" ++ toString n
  else if n < 1000 then "0" ++ toString n
  else toString n

/-- Zero-pad a natural number to six digits (Python `%06d`, used for
microseconds in `isoformat`). -/
def pad6 (n : Nat) : String :=
  if n < 10 then "00000" ++ toString n
  else if n < 100 then "0000" ++ toString n
  else if n < 1000 then "000" ++ toString n
  else if n < 10000 then "00" ++ toString n
  else if n < 100000 then "0" ++ toString n
  else toString n

/-- Python `"%+03d"`: sign character followed by the absolute value
zero-padded to two digits. -/
def signedPad2 (h : Int) : String :=
  (if h < 0 then "-" else "+") ++ pad2 h.natAbs

/-- Gregorian leap-year test (Python `calendar.isleap`). -/
def isLeap (y : Nat) : Bool :=
  y % 4 = 0 && (y % 100 ≠ 0 || y % 400 = 0)

/-- Days in the months before month `m` of year `y` (cumulative,
`m` is 1-based). -/
def daysBeforeMonth (y m : Nat) : Nat :=
  let base :=
    match m with
    | 1 => 0 | 2 => 31 | 3 => 59 | 4 => 90 | 5 => 120 | 6 => 151
    | 7 => 181 | 8 => 212 | 9 => 243 | 10 => 273 | 11 => 304 | _ => 334
  if 2 < m && isLeap y then base + 1 else base

/-- Python `date.toordinal()`: day count with day 1 = 0001-01-01 in the
proleptic Gregorian calendar. -/
def toOrdinal (y m d : Nat) : Nat :=
  365 * (y - 1) + (y - 1) / 4 - (y - 1) / 100 + (y - 1) / 400
    + daysBeforeMonth y m + d

/-- Python `datetime.weekday()`: Monday = 0, ..., Sunday = 6. -/
def DT.weekday (d : DT) : Nat :=
  (toOrdinal d.year d.month d.day - 1) % 7

/-- The fixed English day-name table of `rfc2822_date`. -/
def dayNames : List String :=
  ["Mon", "Tue", "Wed", "Thu", "Fri", "Sat", "Sun"]

/-- The fixed English month-name table of `rfc2822_date`. -/
def monthNames : List String :=
  ["Jan", "Feb", "Mar", "Apr", "May", "Jun",
   "Jul", "Aug", "Sep", "Oct", "Nov", "Dec"]

/-- Modelled from the spec: `feedgenerator.utils.timezone.is_aware`
(timezone-awareness detection; the module is not shipped under `src/`).
A datetime is aware when it carries a `tzinfo` with a UTC offset. -/
def is_aware (d : DT) : Bool :=
  d.tz.isSome

/-- Modelled from the spec: `feedgenerator.utils.datetime_safe.new_datetime`
(the "year-safe datetime wrapper" tolerating years before 1900; the
module is not shipped under `src/`). It changes only formatting
machinery, never the field values, so on this value model it is the
identity. -/
def new_datetime (d : DT) : DT := d

/-- `generator.rfc2822_date`: English day/month abbreviations, numeric
date and time, then the zone suffix: floor-divmod of the offset minutes
into hours/minutes rendered `%+03d%02d` for aware input, literal
`-0000` for naive input. -/
def rfc2822_date (date : DT) : String :=
  let date := new_datetime date
  let dow := dayNames.getD date.weekday ""
  let month := monthNames.getD (date.month - 1) ""
  let time_str := dow ++ ", " ++ pad2 date.day ++ " " ++ month ++ " "
    ++ pad4 date.year ++ " " ++ pad2 date.hour ++ ":" ++ pad2 date.minute
    ++ ":" ++ pad2 date.second ++ " "
  match date.tz with
  | some offset =>
      let hour := Int.fdiv offset 60
      let minute := Int.emod offset 60
      time_str ++ signedPad2 hour ++ pad2 minute.toNat
  | none => time_str ++ "-0000"

/-- The `%Y-%m-%dT%H:%M:%S` part shared by both branches of
`rfc3339_date`. -/
def strfBasic (d : DT) : String :=
  pad4 d.year ++ "-" ++ pad2 d.month ++ "-" ++ pad2 d.day ++ "T"
    ++ pad2 d.hour ++ ":" ++ pad2 d.minute ++ ":" ++ pad2 d.second

/-- `generator.rfc3339_date`: wall-clock time plus `%+03d:%02d` offset
(floor-divmod of offset minutes) for aware input; wall-clock time plus
literal `Z` for naive input. -/
def rfc3339_date (date : DT) : String :=
  let date := new_datetime date
  match date.tz with
  | some offset =>
      let hour := Int.fdiv offset 60
      let minute := Int.emod offset 60
      strfBasic date ++ signedPad2 hour ++ ":" ++ pad2 minute.toNat
  | none => strfBasic date ++ "Z"

/-- Python `datetime.isoformat()`: `YYYY-MM-DDTHH:MM:SS`, a
`.ffffff` microsecond part when nonzero, and for aware values a
correctly signed `±HH:MM` offset. -/
def DT.isoformat (d : DT) : String :=
  let usPart := if d.microsecond = 0 then "" else "." ++ pad6 d.microsecond
  let tzPart :=
    match d.tz with
    | none => ""
    | some off =>
        (if off < 0 then "-" else "+")
          ++ pad2 (off.natAbs / 60) ++ ":" ++ pad2 (off.natAbs % 60)
  strfBasic d ++ usPart ++ tzPart

/-- Chronological key of a datetime: microseconds since the proleptic
epoch of its wall-clock reading, shifted by the UTC offset for aware
values.  Python datetime comparison coincides with comparison of this
key when both operands are naive or both are aware. -/
def DT.micros (d : DT) : Int :=
  ((((toOrdinal d.year d.month d.day : Int) * 24 + d.hour) * 60 + d.minute)
      * 60 + d.second) * 1000000 + d.microsecond
    - (d.tz.getD 0) * 60000000

/-- Python comparison of two datetimes: chronological when both are
naive or both aware, `TypeError` on a naive/aware mix. -/
def pyCompareDT (a b : DT) : Except String Ordering :=
  match a.tz, b.tz with
  | none, some _ => .error "TypeError: naive/aware comparison"
  | some _, none => .error "TypeError: naive/aware comparison"
  | _, _ => .ok (compare a.micros b.micros)

/-- Python `max` over a nonempty list of datetimes (first element plus
the rest): keeps the first of equal maxima, errors on a naive/aware
mixed comparison. -/
def pyMaxDT (x : DT) (rest : List DT) : Except String DT :=
  rest.foldlM
    (fun cur y => do
      let o ← pyCompareDT y cur
      pure (if o = Ordering.gt then y else cur))
    x

/-- Split a character list at the first occurrence of `sep` (Python
`s.split(sep, 1)`): the part before, and the part after when `sep`
occurs. -/
def splitFirst (sep : Char) : List Char → List Char × Option (List Char)
  | [] => ([], none)
  | c :: cs =>
      if c = sep then ([], some cs)
      else
        let (pre, post) := splitFirst sep cs
        (c :: pre, post)

/-- The result record of Python `urlparse.urlparse` (the components
this library reads), as character lists. -/
structure UrlBits where
  scheme : List Char
  netloc : List Char
  path : List Char
  query : List Char
  fragment : List Char
deriving DecidableEq, Repr

/-- Valid characters of a URL scheme after the initial letter. -/
def isSchemeChar (c : Char) : Bool :=
  c.isAlpha || c.isDigit || c = '+' || c = '-' || c = '.'

/-- Modelled from the spec's external-collaborator boundary: Python 2
`urlparse.urlparse` for the component split this library uses (scheme
at the first `:` when the prefix is a valid scheme, `//`-introduced
netloc up to the next `/`, `?` or `#`, then fragment after the first
`#` and query after the first `?`). -/
def urlparse (url : String) : UrlBits :=
  let chars := url.toList
  let (scheme, rest) :=
    match splitFirst ':' chars with
    | (pre, some post) =>
        if pre.length > 0 && (pre.headD 'a').isAlpha
            && pre.all isSchemeChar then
          (pre.map Char.toLower, post)
        else ([], chars)
    | (_, none) => ([], chars)
  let (netloc, rest) :=
    match rest with
    | '/' :: '/' :: after =>
        (after.takeWhile (fun c => c ≠ '/' && c ≠ '?' && c ≠ '#'),
         after.dropWhile (fun c => c ≠ '/' && c ≠ '?' && c ≠ '#'))
    | _ => ([], rest)
  let (rest, frag) := splitFirst '#' rest
  let (path, query) := splitFirst '?' rest
  { scheme := scheme, netloc := netloc, path := path,
    query := query.getD [], fragment := frag.getD [] }

/-- The netloc part after the last `@` (Python `netloc.split('@')[-1]`,
the hostinfo without userinfo). -/
def afterLastAt (l : List Char) : List Char :=
  l.foldl (fun acc c => if c = '@' then [] else acc ++ [c]) []

/-- Python 2 `ParseResult.hostname`: the netloc after the last `@`,
before the first `:`, lowercased; `None` when empty. -/
def UrlBits.hostname (b : UrlBits) : Option (List Char) :=
  let host := ((afterLastAt b.netloc).takeWhile (· ≠ ':')).map Char.toLower
  if host = [] then none else some host

/-- Python `'%s' % v` for an optional hostname: `None` prints as
`"None"`. -/
def pyStr : Option (List Char) → String
  | none => "None"
  | some s => String.mk s

/-- The `,YYYY-MM-DD` date segment of a tag URI (`strftime('%Y-%m-%d')`
prefixed by a comma), empty when no date is supplied. -/
def tagDateSegment : Option DT → String
  | none => ""
  | some dt =>
      let dt := new_datetime dt
      "," ++ pad4 dt.year ++ "-" ++ pad2 dt.month ++ "-" ++ pad2 dt.day

/-- `generator.get_tag_uri`: `tag:{hostname}{,YYYY-MM-DD}:{path}/{fragment}`
with the date segment present exactly when a date is supplied. -/
def get_tag_uri (url : String) (date : Option DT) : String :=
  let bits := urlparse url
  "tag:" ++ pyStr bits.hostname ++ tagDateSegment date ++ ":"
    ++ String.mk bits.path ++ "/" ++ String.mk bits.fragment

/-!
## The XML writer contract

`SimplerXMLGenerator` is an external collaborator; per the writer
contract a serialization is the sequence of writer operations invoked.
-/

/-- One operation of the XML writer contract: document prologue,
element start with ordered attributes, element end, or the
"quick element" convenience (start, optional text content, end). -/
inductive XmlEvent where
  | startDocument
  | start (name : String) (attrs : List (String × String))
  | endE (name : String)
  | quick (name : String) (content : Option String)
      (attrs : List (String × String))
deriving DecidableEq, Repr

/-- Number of `start` events with the given element name. -/
def countStart (name : String) (evs : List XmlEvent) : Nat :=
  (evs.filter (fun e =>
    match e with
    | XmlEvent.start n _ => n = name
    | _ => false)).length

/-- Number of `quick` events with the given element name. -/
def countQuick (name : String) (evs : List XmlEvent) : Nat :=
  (evs.filter (fun e =>
    match e with
    | XmlEvent.quick n _ _ => n = name
    | _ => false)).length

/-- Sequential effectful map over `Except` (the semantics of mapping a
fallible function over a list, first failure aborting). -/
def mapME {α β : Type} (f : α → Except String β) : List α → Except String (List β)
  | [] => .ok []
  | x :: xs => do
      let y ← f x
      let ys ← mapME f xs
      pure (y :: ys)

/-- Python `d[key]` on a minimized dict whose key is modelled by an
`Option` field: `KeyError` when the key is absent. -/
def dictGet {α : Type} (key : String) : Option α → Except String α
  | some v => .ok v
  | none => .error ("KeyError: " ++ key)

/-!
## RSS family (`RssFeed`, `RssUserland091Feed`, `Rss201rev2Feed`)

RSS feed metadata and entries are dicts built by `minimized(...)`, so a
key is present exactly when its value was non-null; both are modelled
by structures of `Option` fields.  The external coercions
`force_unicode` and `iri_to_uri` are the identity here.  Extra
`**kwargs` keys are not modelled: no RSS serialization path ever reads
a key outside the fixed field set below.
-/

/-- `generator.Enclosure`: media URL, length and MIME type. -/
structure Enclosure where
  url : String
  length : String
  mime_type : String
deriving DecidableEq, Repr

/-- The minimized feed-level dict built by `RssFeed.__init__`. -/
structure RssMeta where
  title : Option String
  link : Option String
  description : Option String
  language : Option String
  author_email : Option String
  author_name : Option String
  author_link : Option String
  subtitle : Option String
  categories : List String
  feed_url : Option String
  feed_copyright : Option String
  id : Option String
  ttl : Option String
deriving DecidableEq, Repr

/-- The minimized entry dict built by `RssFeed.add_entry`. -/
structure RssEntry where
  title : Option String
  link : Option String
  description : Option String
  author_email : Option String
  author_name : Option String
  author_link : Option String
  pubdate : Option DT
  comments : Option String
  unique_id : Option String
  enclosure : Option Enclosure
  categories : List String
  entry_copyright : Option String
  ttl : Option String
deriving DecidableEq, Repr

/-- The two RSS dialects (`_version` class attributes). -/
inductive RssVersion where
  | userland091
  | rss20
deriving DecidableEq, Repr

/-- The `_version` string of each RSS dialect class. -/
def RssVersion.string : RssVersion → String
  | .userland091 => "0.91"
  | .rss20 => "2.0"

/-- An RSS feed object: its dialect, the feed-level dict, and the
list-subclass entry storage. -/
structure RssFeedObj where
  version : RssVersion
  meta : RssMeta
  entries : List RssEntry
deriving DecidableEq, Repr

/-- Python `a or b` on two optional strings (empty strings are falsy),
as used for `'id': feed_guid or link`. -/
def pyOrStr (a b : Option String) : Option String :=
  match a with
  | some s => if s = "" then b else some s
  | none => b

/-- `RssFeed.__init__`: coerce fields, default categories to the empty
sequence, derive `id` from `feed_guid or link`, and keep only non-null
fields (`minimized`). -/
def rssInit (version : RssVersion) (title link description : Option String)
    (language author_email author_name author_link subtitle : Option String)
    (categories : Option (List String)) (feed_url feed_copyright : Option String)
    (feed_guid : Option String) (ttl : Option String) : RssFeedObj :=
  { version := version
    meta :=
      { title := title
        link := link
        description := description
        language := language
        author_email := author_email
        author_name := author_name
        author_link := author_link
        subtitle := subtitle
        categories := (categories.getD [])
        feed_url := feed_url
        feed_copyright := feed_copyright
        id := pyOrStr feed_guid link
        ttl := ttl }
    entries := [] }

/-- `RssFeed.add_entry`: build the minimized entry dict and append it
to the feed's entry list. -/
def rssAddEntry (f : RssFeedObj) (title link description : Option String)
    (author_email author_name author_link : Option String)
    (pubdate : Option DT) (comments unique_id : Option String)
    (enclosure : Option Enclosure) (categories : Option (List String))
    (entry_copyright ttl : Option String) : RssFeedObj :=
  { f with entries := f.entries ++
      [{ title := title
         link := link
         description := description
         author_email := author_email
         author_name := author_name
         author_link := author_link
         pubdate := pubdate
         comments := comments
         unique_id := unique_id
         enclosure := enclosure
         categories := (categories.getD [])
         entry_copyright := entry_copyright
         ttl := ttl }] }

/-- `RssFeed.rss_attributes`: the version string and the atom namespace
declaration, in that order. -/
def rssAttributes (v : RssVersion) : List (String × String) :=
  [("version", v.string), ("xmlns:atom", "http://www.w3.org/2005/Atom")]

/-- `SyndicationFeed.latest_post_date`: the chronologically last
`pubdate` among entries carrying one (via `sort`), or the current
date/time when none do.  `now` stands for `datetime.datetime.now()`. -/
def latestPostDate (entries : List RssEntry) (now : DT) : Except String DT :=
  match entries.filterMap (fun e => e.pubdate) with
  | [] => pure now
  | x :: xs =>
      -- `updates.sort(); updates[-1]`: the last maximal element
      xs.foldlM
        (fun cur y => do
          let o ← pyCompareDT y cur
          pure (if o = Ordering.lt then cur else y))
        x

/-- `RssFeed.add_root_elements`: title, link and description by direct
key access (`KeyError` when the key was dropped), then the optional
self link, language, categories, copyright, the always-present
`lastBuildDate`, and ttl. -/
def rssAddRootElements (meta : RssMeta) (entries : List RssEntry)
    (now : DT) : Except String (List XmlEvent) := do
  let t ← dictGet "title" meta.title
  let l ← dictGet "link" meta.link
  let d ← dictGet "description" meta.description
  let latest ← latestPostDate entries now
  pure <|
    [XmlEvent.quick "title" (some t) [],
     XmlEvent.quick "link" (some l) [],
     XmlEvent.quick "description" (some d) []]
    ++ (match meta.feed_url with
        | some u => [XmlEvent.quick "atom:link" none
            [("rel", "self"), ("href", u)]]
        | none => [])
    ++ (match meta.language with
        | some lang => [XmlEvent.quick "language" (some lang) []]
        | none => [])
    ++ meta.categories.map (fun c => XmlEvent.quick "category" (some c) [])
    ++ (match meta.feed_copyright with
        | some c => [XmlEvent.quick "copyright" (some c) []]
        | none => [])
    ++ [XmlEvent.quick "lastBuildDate" (some (rfc2822_date latest)) []]
    ++ (match meta.ttl with
        | some t => [XmlEvent.quick "ttl" (some t) []]
        | none => [])

/-- `RssUserland091Feed.add_entry_elements`: title, link and
description, each by direct key access.  (The `is not None` guard on
the description follows a successful key lookup, and a minimized dict
never holds a null value, so the guard is always satisfied.) -/
def rss091EntryElements (e : RssEntry) : Except String (List XmlEvent) := do
  let t ← dictGet "title" e.title
  let l ← dictGet "link" e.link
  let d ← dictGet "description" e.description
  pure [XmlEvent.quick "title" (some t) [],
        XmlEvent.quick "link" (some l) [],
        XmlEvent.quick "description" (some d) []]

/-- The author tie-break of `Rss201rev2Feed.add_entry_elements`: both
name and email give one `author` element `"email (name)"`; email alone
gives an `author` element; name alone gives a namespaced `dc:creator`
element. -/
def rss20AuthorPart (e : RssEntry) : List XmlEvent :=
  match e.author_name, e.author_email with
  | some nm, some em =>
      [XmlEvent.quick "author" (some (em ++ " (" ++ nm ++ ")")) []]
  | none, some em => [XmlEvent.quick "author" (some em) []]
  | some nm, none =>
      [XmlEvent.quick "dc:creator" (some nm)
        [("xmlns:dc", "http://purl.org/dc/elements/1.1/")]]
  | none, none => []

/-- The optional trailing elements of `Rss201rev2Feed.add_entry_elements`
after the author tie-break: pubDate, comments, guid, ttl, enclosure and
categories, each only if present. -/
def rss20TailPart (e : RssEntry) : List XmlEvent :=
  (match e.pubdate with
   | some p => [XmlEvent.quick "pubDate" (some (rfc2822_date p)) []]
   | none => [])
  ++ (match e.comments with
      | some c => [XmlEvent.quick "comments" (some c) []]
      | none => [])
  ++ (match e.unique_id with
      | some u => [XmlEvent.quick "guid" (some u) []]
      | none => [])
  ++ (match e.ttl with
      | some t => [XmlEvent.quick "ttl" (some t) []]
      | none => [])
  ++ (match e.enclosure with
      | some enc => [XmlEvent.quick "enclosure" (some "")
          [("url", enc.url), ("length", enc.length),
           ("type", enc.mime_type)]]
      | none => [])
  ++ e.categories.map (fun c => XmlEvent.quick "category" (some c) [])

/-- `Rss201rev2Feed.add_entry_elements`: title, link, description by
direct key access, then the author tie-break and the optional trailing
elements. -/
def rss20EntryElements (e : RssEntry) : Except String (List XmlEvent) := do
  let t ← dictGet "title" e.title
  let l ← dictGet "link" e.link
  let d ← dictGet "description" e.description
  pure <|
    [XmlEvent.quick "title" (some t) [],
     XmlEvent.quick "link" (some l) [],
     XmlEvent.quick "description" (some d) []]
    ++ rss20AuthorPart e ++ rss20TailPart e

/-- Dispatch of `add_entry_elements` by RSS dialect class. -/
def rssEntryElements (v : RssVersion) (e : RssEntry) :
    Except String (List XmlEvent) :=
  match v with
  | .userland091 => rss091EntryElements e
  | .rss20 => rss20EntryElements e

/-- One entry of `RssFeed.write_entries`: a `start` event for an
element literally named `entry`, the dialect's entry elements, and the
matching `end` event. -/
def rssEntryBlock (v : RssVersion) (e : RssEntry) :
    Except String (List XmlEvent) := do
  let inner ← rssEntryElements v e
  pure ([XmlEvent.start "entry" []] ++ inner ++ [XmlEvent.endE "entry"])

/-- `RssFeed.write_entries`: the entry blocks of all entries in
insertion order. -/
def rssWriteEntries (v : RssVersion) (entries : List RssEntry) :
    Except String (List XmlEvent) := do
  let blocks ← mapME (rssEntryBlock v) entries
  pure blocks.flatten

/-- `RssFeed.write`: document prologue, `rss` root with version and
atom-namespace attributes, one `channel` child holding the root
elements and then the entries. -/
def rssWrite (f : RssFeedObj) (now : DT) : Except String (List XmlEvent) := do
  let root ← rssAddRootElements f.meta f.entries now
  let entryEvents ← rssWriteEntries f.version f.entries
  pure <|
    [XmlEvent.startDocument,
     XmlEvent.start "rss" (rssAttributes f.version),
     XmlEvent.start "channel" []]
    ++ root ++ entryEvents
    ++ [XmlEvent.endE "channel", XmlEvent.endE "rss"]

/-!
## Atom 1.0 (`Atom1Feed`)

Atom feed metadata and entries are plain Python dicts with
heterogeneous values (strings, datetimes, lists of dicts, dicts).
They are modelled by association lists over the Python-value type
`AVal`.  Construction keys are unique, so the association lists built
by the embedded operations never carry duplicate keys.
-/

/-- A Python value as stored in Atom feed/entry dicts: `None`, a
string, a datetime, a list/tuple, or a nested dict. -/
inductive AVal where
  | null
  | s (v : String)
  | d (v : DT)
  | list (items : List AVal)
  | dict (entries : List (String × AVal))
deriving Repr

/-- Python dict lookup `d.get(key)` on an association list. -/
def alookup (key : String) (l : List (String × AVal)) : Option AVal :=
  (l.find? (fun p => p.1 = key)).map (fun p => p.2)

/-- Python `del d[key]` on an association list. -/
def aremove (key : String) (l : List (String × AVal)) :
    List (String × AVal) :=
  l.filter (fun p => p.1 ≠ key)

/-- Python `d[key] = v`: replace in place when the key exists,
otherwise append. -/
def aset (key : String) (v : AVal) (l : List (String × AVal)) :
    List (String × AVal) :=
  if (l.find? (fun p => p.1 = key)).isSome then
    l.map (fun p => if p.1 = key then (key, v) else p)
  else l ++ [(key, v)]

/-- Is this value Python `None`? -/
def AVal.isNull : AVal → Bool
  | .null => true
  | _ => false

/-- Python truthiness of an `AVal` (empty strings, lists and dicts and
`None` are falsy). -/
def truthy : AVal → Bool
  | .null => false
  | .s v => v.length ≠ 0
  | .d _ => true
  | .list items => items.length ≠ 0
  | .dict entries => entries.length ≠ 0

/-- Python truthiness of `d.get(key)` (`None` when absent). -/
def truthyO : Option AVal → Bool
  | none => false
  | some v => truthy v

/-- `generator.minimized`: drop the keys whose value is `None` from the
first level of a dict. -/
def minimized (l : List (String × AVal)) : List (String × AVal) :=
  l.filter (fun p => !p.2.isNull)

/-- The step `if kwargs.has_key(key) and not kwargs.get(key, {}).get('text'):
del kwargs[key]` applied by Atom construction and entry preparation to
`summary` and `content`: drop the field when its `text` sub-value is
falsy; a present non-dict value has no `get` method
(`AttributeError`). -/
def dropEmptyTextConstruct (key : String) (l : List (String × AVal)) :
    Except String (List (String × AVal)) :=
  match alookup key l with
  | Option.none => .ok l
  | some (.dict d) =>
      if truthyO (alookup "text" d) then .ok l else .ok (aremove key l)
  | some _ => .error "AttributeError: no attribute get"

/-- Python iteration over an `AVal` (`for x in value`): lists yield
their items, dicts yield their keys as strings, strings yield their
characters; `None` and datetimes are not iterable. -/
def iterAVal : AVal → Except String (List AVal)
  | .list items => .ok items
  | .dict entries => .ok (entries.map (fun p => AVal.s p.1))
  | .s v => .ok (v.toList.map (fun c => AVal.s (String.mk [c])))
  | .d _ => .error "TypeError: datetime is not iterable"
  | .null => .error "TypeError: None is not iterable"

/-- Sequential effectful iteration over `Except` (all side conditions
checked in order, first failure aborting). -/
def forME {α : Type} (f : α → Except String Unit) : List α → Except String Unit
  | [] => .ok ()
  | x :: xs => do
      f x
      forME f xs

/-- `assert record.has_key(attr)` for one iterated nested record: a
dict must carry the attribute; anything else has no `has_key`. -/
def checkRecordItem (key attr : String) (item : AVal) : Except String Unit :=
  match item with
  | .dict d =>
      if (alookup attr d).isSome then pure ()
      else .error ("AssertionError: " ++ key ++ " " ++ attr)
  | _ => .error "AttributeError: no attribute has_key"

/-- `for link in entry.get('links', []): assert link.has_key('href')`,
with the non-dict failure modes of iteration and `has_key`. -/
def checkNestedRecords (key attr : String) (l : List (String × AVal)) :
    Except String Unit := do
  match alookup key l with
  | Option.none => pure ()
  | some v => do
      let items ← iterAVal v
      forME (checkRecordItem key attr) items

/-- The convenience promotion shared by Atom construction and entry
preparation: fold a singular `link`/`author` value into the plural
sequence as a one-key dict, then delete the singular key.  `rel` is
the relation attached to a promoted link (`self` for the feed,
`alternate` for entries); for `author` the promoted dict is
`{'name': value}`. -/
def promoteSingular (singular plural : String) (mk : AVal → AVal)
    (l : List (String × AVal)) : Except String (List (String × AVal)) := do
  match alookup singular l with
  | Option.none => pure l
  | some v => do
      let existing ←
        match alookup plural l with
        | Option.none => pure []
        | some (.list items) => pure items
        | some (.dict entries) => pure (entries.map (fun p => AVal.s p.1))
        | some (.s str) => pure (str.toList.map (fun c => AVal.s (String.mk [c])))
        | some _ => .error "TypeError: not iterable"
      pure (aremove singular (aset plural (.list (existing ++ [mk v])) l))

/-- The promoted link dict `{'rel': rel, 'href': value}`. -/
def mkLinkDict (rel : String) (v : AVal) : AVal :=
  .dict [("rel", .s rel), ("href", v)]

/-- The promoted author dict `{'name': value}`. -/
def mkAuthorDict (v : AVal) : AVal :=
  .dict [("name", v)]

/-- The `if entry.has_key(singular):` guard around one promotion. -/
def promoteStep (sing plural : String) (mk : AVal → AVal)
    (l : List (String × AVal)) : Except String (List (String × AVal)) :=
  match alookup sing l with
  | Option.none => pure l
  | some _ => promoteSingular sing plural mk l

/-- An Atom feed object: the feed-level dict and the list-subclass
entry storage. -/
structure AtomFeedObj where
  meta : List (String × AVal)
  entries : List (List (String × AVal))

/-- `Atom1Feed.prepare_entry`: minimize, drop empty text constructs,
validate nested links/authors, require title and updated, apply the
author-or-feed-author rule, synthesize an id when absent (`freshId`
stands for the random URN), and promote singular link/author. -/
def atomPrepareEntry (meta : List (String × AVal))
    (kwargs : List (String × AVal)) (freshId : String) :
    Except String (List (String × AVal)) := do
  let entry := minimized kwargs
  let entry ← dropEmptyTextConstruct "summary" entry
  let entry ← dropEmptyTextConstruct "content" entry
  checkNestedRecords "links" "href" entry
  checkNestedRecords "authors" "name" entry
  if (alookup "title" entry).isSome then pure ()
    else .error "AssertionError: title"
  if (alookup "updated" entry).isSome then pure ()
    else .error "AssertionError: updated"
  if truthyO (alookup "authors" meta) then pure ()
    else if truthyO (alookup "authors" entry)
        || truthyO (alookup "author" entry) then pure ()
    else .error "AssertionError: author"
  let entry :=
    if (alookup "id" entry).isSome then entry
    else entry ++ [("id", .s freshId)]
  let entry ← promoteStep "link" "links" (mkLinkDict "alternate") entry
  let entry ← promoteStep "author" "authors" mkAuthorDict entry
  pure entry

/-- `map(self.prepare_entry, entries)`: prepare every entry in order
against one fixed feed meta dict; the first failure aborts the whole
map.  `entryIds i` stands for the random URN drawn for the `i`-th
entry of the list. -/
def atomPrepareAll (meta : List (String × AVal)) :
    List (List (String × AVal)) → (Nat → String) →
    Except String (List (List (String × AVal)))
  | [], _ => .ok []
  | kw :: rest, entryIds => do
      let e ← atomPrepareEntry meta kw (entryIds 0)
      let es ← atomPrepareAll meta rest (fun i => entryIds (i + 1))
      pure (e :: es)

/-- `Atom1Feed.__init__`: minimize, drop empty text constructs, require
title, validate nested links/authors, synthesize an id, promote
singular link (relation `self`) and author, then prepare-and-extend the
initial entries (`entryIds i` stands for the random URN drawn for the
`i`-th entry). -/
def atomInit (kwargs : List (String × AVal)) (feedId : String)
    (entries : List (List (String × AVal))) (entryIds : Nat → String) :
    Except String AtomFeedObj := do
  let kw := minimized kwargs
  let kw ← dropEmptyTextConstruct "summary" kw
  let kw ← dropEmptyTextConstruct "content" kw
  if (alookup "title" kw).isSome then pure ()
    else .error "AssertionError: title"
  checkNestedRecords "links" "href" kw
  checkNestedRecords "authors" "name" kw
  let kw :=
    if (alookup "id" kw).isSome then kw
    else kw ++ [("id", .s feedId)]
  let kw ← promoteStep "link" "links" (mkLinkDict "self") kw
  let kw ← promoteStep "author" "authors" mkAuthorDict kw
  let prepared ← atomPrepareAll kw entries entryIds
  pure { meta := kw, entries := prepared }

/-- `Atom1Feed.add_entry`: prepare the entry, then append it. -/
def atomAddEntry (f : AtomFeedObj) (kwargs : List (String × AVal))
    (freshId : String) : Except String AtomFeedObj := do
  let e ← atomPrepareEntry f.meta kwargs freshId
  pure { f with entries := f.entries ++ [e] }

/-- `SyndicationFeed.add_entries` as inherited by `Atom1Feed`:
`self.extend(map(self.prepare_entry, entries))` — prepare every entry
(against the unchanged feed meta), then extend the list with all of
them at once. -/
def atomAddEntries (f : AtomFeedObj) (entryList : List (List (String × AVal)))
    (entryIds : Nat → String) : Except String AtomFeedObj := do
  let prepared ← atomPrepareAll f.meta entryList entryIds
  pure { f with entries := f.entries ++ prepared }

/-- The RSS classes define no `prepare_entry`, so the attribute lookup
in the inherited `SyndicationFeed.add_entries` body is what decides the
call. -/
def rssPrepareEntryAttr : Option (RssEntry → RssEntry) := Option.none

/-- `SyndicationFeed.add_entries` as inherited by the RSS classes: the
body references `self.prepare_entry`, an attribute no RSS class
defines, so the call raises `AttributeError` before touching the entry
list. -/
def rssAddEntries (f : RssFeedObj) (entries : List RssEntry) :
    Except String RssFeedObj :=
  match rssPrepareEntryAttr with
  | Option.none =>
      .error "AttributeError: RssFeed object has no attribute prepare_entry"
  | some prep => .ok { f with entries := f.entries ++ entries.map prep }

/-!
## Atom serialization (`Atom1Feed.write` and helpers)
-/

/-- The Atom XML namespace (`Atom1Feed.ns`). -/
def atomNS : String := "http://www.w3.org/2005/Atom"

/-- A value written as XML text content by `addQuickElement`: `None`
means no text; anything but a string cannot be written. -/
def contentOf : AVal → Except String (Option String)
  | .null => .ok Option.none
  | .s v => .ok (some v)
  | _ => .error "TypeError: content is not a string"

/-- A value written as an XML attribute value: must be a string. -/
def attrValOf : AVal → Except String String
  | .s v => .ok v
  | _ => .error "TypeError: attribute value is not a string"

/-- An attribute dict rendered for `startElement`. -/
def attrsOf (d : List (String × AVal)) :
    Except String (List (String × String)) :=
  mapME (fun p => do
    let v ← attrValOf p.2
    pure (p.1, v)) d

/-- `Atom1Feed.root_attributes`: the Atom namespace, plus `xml:lang`
when the feed metadata has a `language` field. -/
def atomRootAttributes (meta : List (String × AVal)) :
    Except String (List (String × String)) :=
  match alookup "language" meta with
  | some v => do
      let lang ← attrValOf v
      pure [("xmlns", atomNS), ("xml:lang", lang)]
  | Option.none => pure [("xmlns", atomNS)]

/-- `Atom1Feed.map_key`: plural internal names map to their singular
element names; every other name maps to itself. -/
def map_key (key : String) : String :=
  if key = "links" then "link"
  else if key = "authors" then "author"
  else if key = "contributors" then "contributor"
  else if key = "categories" then "category"
  else key

/-- `Atom1Feed.add_element`: one quick element. -/
def addElement (key : String) (value : AVal)
    (attributes : List (String × String)) : Except String (List XmlEvent) := do
  let c ← contentOf value
  pure [XmlEvent.quick key c attributes]

/-- `Atom1Feed.add_date_element`: `content.isoformat() + 'Z'`; a
non-datetime value has no `isoformat`. -/
def addDateElement (key : String) (value : AVal) :
    Except String (List XmlEvent) :=
  match value with
  | .d dt => .ok [XmlEvent.quick key (some (dt.isoformat ++ "Z")) []]
  | _ => .error "AttributeError: no attribute isoformat"

/-- `Atom1Feed.add_nested_element` with element children: a start
event, one quick element per dict item, an end event. -/
def addNestedPlain (key : String) (item : AVal) :
    Except String (List XmlEvent) :=
  match item with
  | .dict d => do
      let inner ← mapME (fun p => do
        let c ← contentOf p.2
        pure (XmlEvent.quick p.1 c [])) d
      pure ([XmlEvent.start key []] ++ inner ++ [XmlEvent.endE key])
  | _ => .error "AttributeError: no attribute iteritems"

/-- `Atom1Feed.add_plain_elements`: one nested element per item of the
value. -/
def addPlainElements (key : String) (value : AVal) :
    Except String (List XmlEvent) := do
  let items ← iterAVal value
  let blocks ← mapME (addNestedPlain key) items
  pure blocks.flatten

/-- `Atom1Feed.add_nested_element` with attributes only: a start event
carrying the item's entries as attributes, then an end event. -/
def addNestedSelfClosing (key : String) (item : AVal) :
    Except String (List XmlEvent) :=
  match item with
  | .dict d => do
      let attrs ← attrsOf d
      pure [XmlEvent.start key attrs, XmlEvent.endE key]
  | _ => .error "AttributeError: no attribute items"

/-- `Atom1Feed.add_self_closing_elements`: one attribute-only nested
element per item of the value. -/
def addSelfClosingElements (key : String) (value : AVal) :
    Except String (List XmlEvent) := do
  let items ← iterAVal value
  let blocks ← mapME (addNestedSelfClosing key) items
  pure blocks.flatten

/-- `Atom1Feed.add_text_construct_element`: partition the dict into the
`text` content and the `type` attribute, then write one element. -/
def addTextConstructElement (key : String) (value : AVal) :
    Except String (List XmlEvent) :=
  match value with
  | .dict d => do
      let content ←
        match alookup "text" d with
        | some c => pure c
        | Option.none => .error "KeyError: text"
      let attrs ← attrsOf (d.filter (fun p => p.1 = "type"))
      addElement key content attrs
  | _ => .error "AttributeError: no attribute iteritems"

/-- The field names the root-element dispatch table (`cases` in
`add_root_elements`) recognizes. -/
def atomRootKeys : List String :=
  ["id", "title", "updated", "authors", "links", "categories",
   "contributors", "generator", "subtitle", "icon", "logo", "rights"]

/-- One iteration of the `add_root_elements` dispatch loop:
`cases[key](handler, self.map_key(key), value)`, a `KeyError` when the
key is outside the dispatch table. -/
def atomRootCase (key : String) (value : AVal) :
    Except String (List XmlEvent) :=
  if key = "id" || key = "title" || key = "subtitle" || key = "icon"
      || key = "logo" then
    addElement (map_key key) value []
  else if key = "updated" then
    addDateElement (map_key key) value
  else if key = "authors" || key = "contributors" then
    addPlainElements (map_key key) value
  else if key = "links" || key = "categories" then
    addSelfClosingElements (map_key key) value
  else if key = "generator" || key = "rights" then
    addTextConstructElement (map_key key) value
  else .error ("KeyError: " ++ key)

/-- The dispatch loop of `add_root_elements` over the feed metadata. -/
def atomRootLoop (meta : List (String × AVal)) :
    Except String (List XmlEvent) := do
  let blocks ← mapME (fun p => atomRootCase p.1 p.2) meta
  pure blocks.flatten

/-- `entry['updated']` as read by the `updated` synthesis: the entry's
datetime, a `KeyError` when absent (the model requires the documented
datetime type for the value, where Python 2 would otherwise fall into
cross-type comparison). -/
def entryUpdated (e : List (String × AVal)) : Except String DT :=
  match alookup "updated" e with
  | some (.d dt) => Except.ok dt
  | some _ => Except.error "TypeError: updated is not a datetime"
  | Option.none => Except.error "KeyError: updated"

/-- The `updated` synthesis at the end of `add_root_elements`: when the
feed metadata has no `updated` field, emit
`max([entry['updated'] for entry in self] + [utcnow()]).isoformat() + 'Z'`.
`now` stands for `datetime.datetime.utcnow()`. -/
def atomSynthUpdated (meta : List (String × AVal))
    (entries : List (List (String × AVal))) (now : DT) :
    Except String (List XmlEvent) :=
  if (alookup "updated" meta).isSome then pure []
  else do
    let ds ← mapME entryUpdated entries
    let m ←
      match ds ++ [now] with
      | [] => pure now
      | x :: xs => pyMaxDT x xs
    pure [XmlEvent.quick "updated" (some (m.isoformat ++ "Z")) []]

/-- `Atom1Feed.add_root_elements`: the dispatch loop followed by the
`updated` synthesis. -/
def atomAddRootElements (meta : List (String × AVal))
    (entries : List (List (String × AVal))) (now : DT) :
    Except String (List XmlEvent) := do
  let es ← atomRootLoop meta
  let syn ← atomSynthUpdated meta entries now
  pure (es ++ syn)

/-- The field names the entry-element dispatch table (`cases` in
`add_entry_elements`) recognizes. -/
def atomEntryKeys : List String :=
  ["id", "title", "updated", "published", "summary", "content",
   "authors", "links", "categories", "contributors", "rights", "source"]

/-- One iteration of the `add_entry_elements` dispatch loop. -/
def atomEntryCase (key : String) (value : AVal) :
    Except String (List XmlEvent) :=
  if key = "id" || key = "title" then
    addElement (map_key key) value []
  else if key = "updated" || key = "published" then
    addDateElement (map_key key) value
  else if key = "summary" || key = "content" || key = "rights" then
    addTextConstructElement (map_key key) value
  else if key = "authors" || key = "contributors" || key = "source" then
    addPlainElements (map_key key) value
  else if key = "links" || key = "categories" then
    addSelfClosingElements (map_key key) value
  else .error ("KeyError: " ++ key)

/-- The dispatch loop of `add_entry_elements` over one entry. -/
def atomEntryLoop (entry : List (String × AVal)) :
    Except String (List XmlEvent) := do
  let blocks ← mapME (fun p => atomEntryCase p.1 p.2) entry
  pure blocks.flatten

/-- One entry of `Atom1Feed.write_entries`: a start event for an
`entry` element, the entry's elements, the matching end event. -/
def atomEntryBlock (e : List (String × AVal)) :
    Except String (List XmlEvent) := do
  let inner ← atomEntryLoop e
  pure ([XmlEvent.start "entry" []] ++ inner ++ [XmlEvent.endE "entry"])

/-- `Atom1Feed.write_entries`: the entry blocks of all entries in
insertion order. -/
def atomWriteEntries (entries : List (List (String × AVal))) :
    Except String (List XmlEvent) := do
  let blocks ← mapME atomEntryBlock entries
  pure blocks.flatten

/-- `Atom1Feed.write`: document prologue, `feed` root with the root
attributes, root elements, entries, closing event. -/
def atomWrite (f : AtomFeedObj) (now : DT) : Except String (List XmlEvent) := do
  let attrs ← atomRootAttributes f.meta
  let root ← atomAddRootElements f.meta f.entries now
  let entryEvs ← atomWriteEntries f.entries
  pure ([XmlEvent.startDocument, XmlEvent.start "feed" attrs]
    ++ root ++ entryEvs ++ [XmlEvent.endE "feed"])

/-!
## Sample data for evaluation theorems
-/

/-- A fixed "current instant" for write-time evaluations. -/
def sampleNow : DT := ⟨2021, 1, 1, 0, 0, 0, 0, Option.none⟩

/-- An RSS 2.0 feed with two entries added in order. -/
def sampleRss20 : RssFeedObj :=
  rssAddEntry
    (rssAddEntry
      (rssInit .rss20 (some "Sample") (some "http://example.com/")
        (some "A sample feed.") Option.none Option.none Option.none
        Option.none Option.none Option.none (some "http://example.com/rss")
        Option.none Option.none Option.none)
      (some "first") (some "http://example.com/1") (some "d1")
      Option.none Option.none Option.none Option.none Option.none
      Option.none Option.none Option.none Option.none Option.none)
    (some "second") (some "http://example.com/2") (some "d2")
    Option.none Option.none Option.none Option.none Option.none
    Option.none Option.none Option.none Option.none Option.none

/-- An RSS 0.91 feed whose single entry was added with a null
description (the key is dropped by `minimized`). -/
def sampleRss091 : RssFeedObj :=
  rssAddEntry
    (rssInit .userland091 (some "Sample") (some "http://example.com/")
      (some "A sample feed.") Option.none Option.none Option.none
      Option.none Option.none Option.none Option.none Option.none
      Option.none Option.none)
    (some "first") (some "http://example.com/1") Option.none
    Option.none Option.none Option.none Option.none Option.none
    Option.none Option.none Option.none Option.none Option.none

/-!
## Claim theorems
-/

/-- C9: `get_tag_uri` is deterministic and returns
`tag:{host}{,date}:{path}/{fragment}` with host, path and fragment
parsed from the URL and the `,YYYY-MM-DD` segment spliced right after
the host exactly when a date is supplied; in particular
`get_tag_uri("http://example.com/path#frag", None)` is
`tag:example.com:/path/frag`. -/
theorem c9_get_tag_uri_spec :
    (∀ url date, get_tag_uri url date =
      "tag:" ++ pyStr (urlparse url).hostname ++ tagDateSegment date ++ ":"
        ++ String.mk (urlparse url).path ++ "/"
        ++ String.mk (urlparse url).fragment)
    ∧ tagDateSegment Option.none = ""
    ∧ (∀ d : DT, tagDateSegment (some d) =
        "," ++ pad4 d.year ++ "-" ++ pad2 d.month ++ "-" ++ pad2 d.day)
    ∧ get_tag_uri "http://example.com/path#frag" Option.none
        = "tag:example.com:/path/frag"
    ∧ get_tag_uri "http://example.com/path#frag"
        (some ⟨2004, 10, 25, 12, 0, 0, 0, Option.none⟩)
        = "tag:example.com,2004-10-25:/path/frag" := by
  refine ⟨fun url date => rfl, rfl, fun d => rfl, by decide, by decide⟩

/-- C7: evaluation of `rfc2822_date` at the claim's cases.  The naive
suffix `-0000`, the aware `+0000` for offset zero and the English
day/month tables behave as claimed, but an aware datetime with UTC
offset -330 minutes (a -5:30 zone) is rendered with zone `-0630`
(floor-divmod of the offset), not `-0530` as the claim states. -/
theorem c7_rfc2822_offset_eval :
    rfc2822_date ⟨2020, 1, 1, 0, 0, 0, 0, some (-330)⟩
      = "Wed, 01 Jan 2020 00:00:00 -0630"
    ∧ rfc2822_date ⟨2020, 1, 1, 0, 0, 0, 0, Option.none⟩
      = "Wed, 01 Jan 2020 00:00:00 -0000"
    ∧ rfc2822_date ⟨2020, 1, 1, 0, 0, 0, 0, some 0⟩
      = "Wed, 01 Jan 2020 00:00:00 +0000" := by
  refine ⟨by decide, by decide, by decide⟩

/-- C3: evaluation of `write` on RSS 2.0 and RSS 0.91 feeds with
entries.  The root `rss` element carries the dialect's version
attribute and the `xmlns:atom` declaration and there is exactly one
`channel`, but each added entry is serialized as an element literally
named `entry`, never `item`. -/
theorem c3_rss_write_eval :
    (∃ evs, rssWrite sampleRss20 sampleNow = .ok evs
      ∧ countStart "rss" evs = 1
      ∧ XmlEvent.start "rss"
          [("version", "2.0"), ("xmlns:atom", "http://www.w3.org/2005/Atom")]
          ∈ evs
      ∧ countStart "channel" evs = 1
      ∧ countStart "entry" evs = 2
      ∧ countStart "item" evs = 0
      ∧ countQuick "item" evs = 0)
    ∧ (∃ evs, rssWrite { sampleRss091 with
          entries := [{ title := some "first",
                        link := some "http://example.com/1",
                        description := some "d1",
                        author_email := Option.none,
                        author_name := Option.none,
                        author_link := Option.none,
                        pubdate := Option.none, comments := Option.none,
                        unique_id := Option.none, enclosure := Option.none,
                        categories := [], entry_copyright := Option.none,
                        ttl := Option.none }] } sampleNow = .ok evs
      ∧ XmlEvent.start "rss"
          [("version", "0.91"), ("xmlns:atom", "http://www.w3.org/2005/Atom")]
          ∈ evs
      ∧ countStart "entry" evs = 1
      ∧ countStart "item" evs = 0) := by
  constructor
  · exact ⟨_, rfl, by decide, by decide, by decide, by decide, by decide,
      by decide⟩
  · exact ⟨_, rfl, by decide, by decide, by decide⟩

/-- C5: evaluation of RSS 0.91 serialization at an entry whose
description was null.  Normalization (`minimized`) drops the key, and
`add_entry_elements` then fails with a `KeyError` on the unconditional
`entry['description']` access: `write` raises instead of omitting the
description element. -/
theorem c5_rss091_null_description_eval :
    (sampleRss091.entries.map (fun e => e.description)) = [Option.none]
    ∧ (sampleRss091.entries.map (fun e => e.title)) = [some "first"]
    ∧ rssWrite sampleRss091 sampleNow = .error "KeyError: description" := by
  refine ⟨rfl, rfl, rfl⟩
/-- C8: `rfc3339_date` of a naive datetime is the `%Y-%m-%dT%H:%M:%S`
wall-clock string followed by literal `Z`; of an aware datetime (with
the offset in the valid Python range, strictly between -1440 and 1440
minutes) it is the wall-clock string followed by a colon-separated
signed two-digit offset, which for offset -5:00 (-300 minutes) is
`-05:00`. -/
theorem c8_rfc3339_spec (d : DT) (off : Int) :
    (d.tz = Option.none → rfc3339_date d = strfBasic d ++ "Z")
    ∧ (d.tz = some off → -1440 < off → off < 1440 →
        ∃ hh mm : Nat, hh ≤ 24 ∧ mm < 60
          ∧ rfc3339_date d
              = strfBasic d ++ ((if off < 0 then "-" else "+") ++ pad2 hh)
                ++ ":" ++ pad2 mm
          ∧ (off = -300 →
              ((if off < 0 then "-" else "+") ++ pad2 hh) ++ ":" ++ pad2 mm
                = "-05:00")) := by
  constructor
  · intro h
    simp [rfc3339_date, new_datetime, h]
  · intro h hlo hhi
    have hfd : Int.fdiv off 60 = off / 60 := Int.fdiv_eq_ediv off (by norm_num)
    refine ⟨(off / 60).natAbs, (off % 60).toNat, by omega, by omega, ?_, ?_⟩
    · simp only [rfc3339_date, new_datetime, h, signedPad2, hfd]
      simp only [show ((off / 60 : Int) < 0) = (off < 0) from
        propext (by omega)]
      rfl
    · intro hoff
      subst hoff
      decide

/-- Closed instances of `c8_rfc3339_spec`: the naive branch at a
concrete naive datetime and the aware branch at offset -300. -/
theorem c8_rfc3339_witness :
    rfc3339_date ⟨2020, 1, 1, 12, 30, 5, 0, Option.none⟩
      = strfBasic ⟨2020, 1, 1, 12, 30, 5, 0, Option.none⟩ ++ "Z"
    ∧ (∃ hh mm : Nat, hh ≤ 24 ∧ mm < 60
        ∧ rfc3339_date ⟨2020, 1, 1, 12, 30, 5, 0, some (-300)⟩
            = strfBasic ⟨2020, 1, 1, 12, 30, 5, 0, some (-300)⟩
              ++ ((if (-300 : Int) < 0 then "-" else "+") ++ pad2 hh)
              ++ ":" ++ pad2 mm
        ∧ ((-300 : Int) = -300 →
            ((if (-300 : Int) < 0 then "-" else "+") ++ pad2 hh)
              ++ ":" ++ pad2 mm = "-05:00")) :=
  ⟨(c8_rfc3339_spec ⟨2020, 1, 1, 12, 30, 5, 0, Option.none⟩ 0).1 rfl,
   (c8_rfc3339_spec ⟨2020, 1, 1, 12, 30, 5, 0, some (-300)⟩ (-300)).2 rfl
     (by norm_num) (by norm_num)⟩
/-- Appending event lists adds the per-name quick-element counts. -/
theorem countQuick_append (name : String) (a b : List XmlEvent) :
    countQuick name (a ++ b) = countQuick name a + countQuick name b := by
  simp [countQuick, List.filter_append]

/-- The trailing-part elements of an RSS 2.0 entry contain no `author`
and no `dc:creator` element. -/
theorem rss20TailPart_no_author (e : RssEntry) :
    countQuick "author" (rss20TailPart e) = 0
    ∧ countQuick "dc:creator" (rss20TailPart e) = 0 := by
  have hcat : ∀ (name : String) (cats : List String), name ≠ "category" →
      countQuick name (cats.map
        (fun c => XmlEvent.quick "category" (some c) [])) = 0 := by
    intro name cats hname
    induction cats with
    | nil => rfl
    | cons c rest ih =>
        simp [countQuick, List.filter] at ih ⊢
        simp [Ne.symm hname, ih]
  unfold rss20TailPart
  rcases e.pubdate with _ | p <;> rcases e.comments with _ | c <;>
    rcases e.unique_id with _ | u <;> rcases e.ttl with _ | t <;>
    rcases e.enclosure with _ | enc <;>
    simp [countQuick_append, hcat, countQuick]

/-- C6: for every serializable RSS 2.0 entry, the author tie-break: name
and email give exactly one `author` element with text `email (name)`
and no `dc:creator`; email alone gives one `author` element with the
email; name alone gives no `author` element and exactly one namespaced
`dc:creator` element. -/
theorem c6_rss20_author_tiebreak (e : RssEntry) (t l d : String)
    (ht : e.title = some t) (hl : e.link = some l)
    (hd : e.description = some d) :
    ∃ evs, rss20EntryElements e = .ok evs
      ∧ (∀ nm em, e.author_name = some nm → e.author_email = some em →
          countQuick "author" evs = 1 ∧ countQuick "dc:creator" evs = 0
          ∧ XmlEvent.quick "author" (some (em ++ " (" ++ nm ++ ")")) [] ∈ evs)
      ∧ (∀ em, e.author_name = Option.none → e.author_email = some em →
          countQuick "author" evs = 1 ∧ countQuick "dc:creator" evs = 0
          ∧ XmlEvent.quick "author" (some em) [] ∈ evs)
      ∧ (∀ nm, e.author_name = some nm → e.author_email = Option.none →
          countQuick "author" evs = 0 ∧ countQuick "dc:creator" evs = 1
          ∧ XmlEvent.quick "dc:creator" (some nm)
              [("xmlns:dc", "http://purl.org/dc/elements/1.1/")] ∈ evs) := by
  obtain ⟨hta, htc⟩ := rss20TailPart_no_author e
  refine ⟨[XmlEvent.quick "title" (some t) [], XmlEvent.quick "link" (some l) [],
      XmlEvent.quick "description" (some d) []]
      ++ rss20AuthorPart e ++ rss20TailPart e, ?_, ?_, ?_, ?_⟩
  · simp [rss20EntryElements, ht, hl, hd, dictGet, Except.bind, bind,
        pure, Except.pure]
  · intro nm em h1 h2
    refine ⟨?_, ?_, ?_⟩
    · rw [countQuick_append, countQuick_append, hta]
      simp [countQuick, rss20AuthorPart, h1, h2]
    · rw [countQuick_append, countQuick_append, htc]
      simp [countQuick, rss20AuthorPart, h1, h2]
    · simp [rss20AuthorPart, h1, h2]
  · intro em h1 h2
    refine ⟨?_, ?_, ?_⟩
    · rw [countQuick_append, countQuick_append, hta]
      simp [countQuick, rss20AuthorPart, h1, h2]
    · rw [countQuick_append, countQuick_append, htc]
      simp [countQuick, rss20AuthorPart, h1, h2]
    · simp [rss20AuthorPart, h1, h2]
  · intro nm h1 h2
    refine ⟨?_, ?_, ?_⟩
    · rw [countQuick_append, countQuick_append, hta]
      simp [countQuick, rss20AuthorPart, h1, h2]
    · rw [countQuick_append, countQuick_append, htc]
      simp [countQuick, rss20AuthorPart, h1, h2]
    · simp [rss20AuthorPart, h1, h2]

/-- Closed instance of `c6_rss20_author_tiebreak` at a concrete entry
with both author name and email. -/
theorem c6_rss20_author_witness :
    ∃ evs, rss20EntryElements
        { title := some "t", link := some "http://e/", description := some "d",
          author_email := some "me@example.com", author_name := some "Me",
          author_link := Option.none, pubdate := Option.none,
          comments := Option.none, unique_id := Option.none,
          enclosure := Option.none, categories := [],
          entry_copyright := Option.none, ttl := Option.none } = .ok evs
      ∧ countQuick "author" evs = 1 ∧ countQuick "dc:creator" evs = 0
      ∧ XmlEvent.quick "author" (some ("me@example.com" ++ " (" ++ "Me" ++ ")")) []
          ∈ evs := by
  obtain ⟨evs, hok, hboth, _, _⟩ :=
    c6_rss20_author_tiebreak
      { title := some "t", link := some "http://e/", description := some "d",
        author_email := some "me@example.com", author_name := some "Me",
        author_link := Option.none, pubdate := Option.none,
        comments := Option.none, unique_id := Option.none,
        enclosure := Option.none, categories := [],
        entry_copyright := Option.none, ttl := Option.none }
      "t" "http://e/" "d" rfl rfl rfl
  obtain ⟨h1, h2, h3⟩ := hboth "Me" "me@example.com" rfl rfl
  exact ⟨evs, hok, h1, h2, h3⟩
/-- Binding an `Except` error short-circuits. -/
@[simp] theorem exceptErrorBind {α β : Type} (e : String)
    (g : α → Except String β) : (Except.error e >>= g) = Except.error e := rfl

/-- Binding an `Except` success applies the continuation. -/
@[simp] theorem exceptOkBind {α β : Type} (a : α)
    (g : α → Except String β) : (Except.ok a >>= g) = g a := rfl

/-- If one list element makes `f` fail, mapping `f` over the list
fails. -/
theorem mapME_error_of_mem {α β : Type} (f : α → Except String β) :
    ∀ (l : List α) (x : α), x ∈ l → (∃ e, f x = .error e) →
      ∃ e, mapME f l = .error e := by
  intro l
  induction l with
  | nil => simp
  | cons a as ih =>
      intro x hx he
      rcases List.mem_cons.mp hx with rfl | hmem
      · obtain ⟨e, he⟩ := he
        exact ⟨e, by rw [mapME, he]; simp⟩
      · cases hfa : f a with
        | error err => exact ⟨err, by rw [mapME, hfa]; simp⟩
        | ok b =>
            obtain ⟨e, hmap⟩ := ih x hmem he
            exact ⟨e, by rw [mapME, hfa, hmap]; simp⟩

/-- A key outside the root dispatch table falls through every branch of
the `cases` lookup to a `KeyError`. -/
theorem atomRootCase_unknown (k : String) (v : AVal)
    (hk : k ∉ atomRootKeys) :
    atomRootCase k v = .error ("KeyError: " ++ k) := by
  simp [atomRootKeys] at hk
  obtain ⟨h1, h2, h3, h4, h5, h6, h7, h8, h9, h10, h11, h12⟩ := hk
  simp [atomRootCase, h1, h2, h3, h4, h5, h6, h7, h8, h9, h10, h11, h12]

/-- A key outside the entry dispatch table falls through every branch
of the `cases` lookup to a `KeyError`. -/
theorem atomEntryCase_unknown (k : String) (v : AVal)
    (hk : k ∉ atomEntryKeys) :
    atomEntryCase k v = .error ("KeyError: " ++ k) := by
  simp [atomEntryKeys] at hk
  obtain ⟨h1, h2, h3, h4, h5, h6, h7, h8, h9, h10, h11, h12⟩ := hk
  simp [atomEntryCase, h1, h2, h3, h4, h5, h6, h7, h8, h9, h10, h11, h12]

/-- A bad root key makes the whole root-element loop fail. -/
theorem atomRootLoop_error (meta : List (String × AVal))
    (hbad : ∃ p ∈ meta, p.1 ∉ atomRootKeys) :
    ∃ err, atomRootLoop meta = .error err := by
  obtain ⟨p, hp, hk⟩ := hbad
  obtain ⟨e, hmap⟩ := mapME_error_of_mem (fun p => atomRootCase p.1 p.2)
    meta p hp ⟨_, atomRootCase_unknown p.1 p.2 hk⟩
  exact ⟨e, by simp [atomRootLoop, hmap]⟩

/-- A bad root key makes `write` fail, whatever the other metadata
does. -/
theorem atomWrite_error_of_root_bad (f : AtomFeedObj) (now : DT)
    (hbad : ∃ p ∈ f.meta, p.1 ∉ atomRootKeys) :
    ∃ err, atomWrite f now = .error err := by
  obtain ⟨e, hloop⟩ := atomRootLoop_error f.meta hbad
  cases hattrs : atomRootAttributes f.meta with
  | error ea => exact ⟨ea, by simp [atomWrite, hattrs]⟩
  | ok a =>
      exact ⟨e, by simp [atomWrite, hattrs, atomAddRootElements, hloop]⟩

/-- A bad key in some entry makes the entry-writing pass fail. -/
theorem atomWriteEntries_error (entries : List (List (String × AVal)))
    (hbad : ∃ en ∈ entries, ∃ p ∈ en, p.1 ∉ atomEntryKeys) :
    ∃ err, atomWriteEntries entries = .error err := by
  obtain ⟨en, hen, p, hp, hk⟩ := hbad
  obtain ⟨e, hloop⟩ := mapME_error_of_mem (fun p => atomEntryCase p.1 p.2)
    en p hp ⟨_, atomEntryCase_unknown p.1 p.2 hk⟩
  have hel : atomEntryLoop en = .error e := by
    simp [atomEntryLoop, hloop]
  obtain ⟨e2, hmap⟩ := mapME_error_of_mem atomEntryBlock entries en hen
    ⟨e, by simp [atomEntryBlock, hel]⟩
  refine ⟨e2, ?_⟩
  simp [atomWriteEntries, hmap]

/-- C10: Atom `write` fails with a lookup error whenever the feed
metadata holds a field outside the root dispatch table, or any entry
holds a field outside the entry dispatch table; in particular a
feed-level `language` field is rendered as `xml:lang` by
`root_attributes` but is not in the root dispatch table, so a feed
carrying one never serializes. -/
theorem c10_atom_unknown_field_write_error (f : AtomFeedObj) (now : DT) :
    ((∃ p ∈ f.meta, p.1 ∉ atomRootKeys) → ∃ err, atomWrite f now = .error err)
    ∧ ((∃ en ∈ f.entries, ∃ p ∈ en, p.1 ∉ atomEntryKeys) →
        ∃ err, atomWrite f now = .error err)
    ∧ (∀ lang, alookup "language" f.meta = some (.s lang) →
        atomRootAttributes f.meta = .ok [("xmlns", atomNS), ("xml:lang", lang)]
        ∧ ∃ err, atomWrite f now = .error err) := by
  refine ⟨atomWrite_error_of_root_bad f now, ?_, ?_⟩
  · intro hbad
    obtain ⟨e, hwe⟩ := atomWriteEntries_error f.entries hbad
    cases hattrs : atomRootAttributes f.meta with
    | error ea => exact ⟨ea, by simp [atomWrite, hattrs]⟩
    | ok a =>
        cases hroot : atomAddRootElements f.meta f.entries now with
        | error er => exact ⟨er, by simp [atomWrite, hattrs, hroot]⟩
        | ok r => exact ⟨e, by simp [atomWrite, hattrs, hroot, hwe]⟩
  · intro lang hlang
    obtain ⟨p0, hfind, hv⟩ := Option.map_eq_some'.mp hlang
    have hp1 : p0.1 = "language" := by
      have := List.find?_some hfind
      simpa using this
    have hmem := List.mem_of_find?_eq_some hfind
    constructor
    · simp [atomRootAttributes, hlang, attrValOf]
    · exact atomWrite_error_of_root_bad f now
        ⟨p0, hmem, by rw [hp1]; decide⟩

/-- Closed instance of `c10_atom_unknown_field_write_error`: a concrete
feed whose metadata carries `language` has the `xml:lang` root
attribute computed but fails to serialize. -/
theorem c10_atom_language_witness :
    atomRootAttributes [("title", AVal.s "t"), ("language", AVal.s "en")]
      = .ok [("xmlns", atomNS), ("xml:lang", "en")]
    ∧ ∃ err, atomWrite
        { meta := [("title", AVal.s "t"), ("language", AVal.s "en")],
          entries := [] } sampleNow = .error err :=
  (c10_atom_unknown_field_write_error
    { meta := [("title", AVal.s "t"), ("language", AVal.s "en")],
      entries := [] } sampleNow).2.2 "en" rfl
/-- Sequential single adds: the effect of calling `add_entry` once per
entry, left to right (the spec's reading of bulk add). -/
def atomSeqAddEntries (f : AtomFeedObj) :
    List (List (String × AVal)) → (Nat → String) →
    Except String AtomFeedObj
  | [], _ => .ok f
  | kw :: rest, entryIds => do
      let f2 ← atomAddEntry f kw (entryIds 0)
      atomSeqAddEntries f2 rest (fun i => entryIds (i + 1))

/-- Bulk add on an Atom feed agrees with sequential single adds. -/
theorem atomAddEntries_eq_seq :
    ∀ (kws : List (List (String × AVal))) (f : AtomFeedObj)
      (entryIds : Nat → String),
      atomAddEntries f kws entryIds = atomSeqAddEntries f kws entryIds := by
  intro kws
  induction kws with
  | nil =>
      intro f entryIds
      simp [atomAddEntries, atomSeqAddEntries, atomPrepareAll]
  | cons kw rest ih =>
      intro f entryIds
      simp only [atomAddEntries, atomSeqAddEntries, atomAddEntry,
        atomPrepareAll]
      cases hp : atomPrepareEntry f.meta kw (entryIds 0) with
      | error e => simp [hp]
      | ok e =>
          simp only [hp, exceptOkBind, pure_bind]
          rw [← ih]
          cases hr : atomPrepareAll f.meta rest (fun i => entryIds (i + 1)) with
          | error e2 => simp [atomAddEntries, hr]
          | ok es => simp [atomAddEntries, hr]

/-- C4: on Atom feeds the inherited bulk add equals applying the single
`add_entry` normalization-and-append per entry in order; but the same
inherited method on the RSS dialects always fails with an attribute
lookup error (no RSS class defines `prepare_entry`), even on entry
lists whose single adds would all succeed. -/
theorem c4_add_entries (f : AtomFeedObj) (kws : List (List (String × AVal)))
    (entryIds : Nat → String) (g : RssFeedObj) (es : List RssEntry) :
    atomAddEntries f kws entryIds = atomSeqAddEntries f kws entryIds
    ∧ rssAddEntries g es
        = .error "AttributeError: RssFeed object has no attribute prepare_entry" :=
  ⟨atomAddEntries_eq_seq kws f entryIds, rfl⟩
/-- Python `max` over naive datetimes succeeds and returns an element
that bounds every input chronologically. -/
theorem pyMaxDT_naive :
    ∀ (xs : List DT) (x : DT), x.tz = Option.none →
      (∀ y ∈ xs, y.tz = Option.none) →
      ∃ m, pyMaxDT x xs = .ok m
        ∧ (m = x ∨ m ∈ xs)
        ∧ m.tz = Option.none
        ∧ x.micros ≤ m.micros
        ∧ (∀ y ∈ xs, y.micros ≤ m.micros) := by
  intro xs
  induction xs with
  | nil =>
      intro x hx _
      exact ⟨x, rfl, Or.inl rfl, hx, le_refl _, by simp⟩
  | cons y ys ih =>
      intro x hx hys
      have hy : y.tz = Option.none := hys y (List.mem_cons_self y ys)
      have hstep : pyMaxDT x (y :: ys)
          = pyMaxDT (if compare y.micros x.micros = Ordering.gt then y else x)
              ys := by
        simp [pyMaxDT, pyCompareDT, hx, hy, List.foldlM]
      by_cases hgt : compare y.micros x.micros = Ordering.gt
      · have hlt : x.micros < y.micros := compare_gt_iff_gt.mp hgt
        obtain ⟨m, hok, hmem, hmtz, hbound, hall⟩ :=
          ih y hy (fun z hz => hys z (List.mem_cons_of_mem y hz))
        refine ⟨m, ?_, ?_, hmtz, le_trans (le_of_lt hlt) hbound, ?_⟩
        · rw [hstep, if_pos hgt]; exact hok
        · rcases hmem with rfl | hmem
          · exact Or.inr (List.mem_cons_self m ys)
          · exact Or.inr (List.mem_cons_of_mem y hmem)
        · intro z hz
          rcases List.mem_cons.mp hz with rfl | hz2
          · exact hbound
          · exact hall z hz2
      · have hle : y.micros ≤ x.micros := by
          rcases lt_trichotomy x.micros y.micros with hlt | heq | hgt2
          · exact absurd (compare_gt_iff_gt.mpr hlt) hgt
          · exact le_of_eq heq.symm
          · exact le_of_lt hgt2
        obtain ⟨m, hok, hmem, hmtz, hbound, hall⟩ :=
          ih x hx (fun z hz => hys z (List.mem_cons_of_mem y hz))
        refine ⟨m, ?_, ?_, hmtz, hbound, ?_⟩
        · rw [hstep, if_neg hgt]; exact hok
        · rcases hmem with rfl | hmem
          · exact Or.inl rfl
          · exact Or.inr (List.mem_cons_of_mem y hmem)
        · intro z hz
          rcases List.mem_cons.mp hz with rfl | hz2
          · exact le_trans hle hbound
          · exact hall z hz2

/-- Reading `entry['updated']` across a list of entries that all carry
a naive datetime `updated` value succeeds, and the values read are
exactly the entries' values. -/
theorem mapME_entryUpdated (entries : List (List (String × AVal)))
    (h : ∀ e ∈ entries, ∃ dt : DT,
      alookup "updated" e = some (.d dt) ∧ dt.tz = Option.none) :
    ∃ ds : List DT, mapME entryUpdated entries = .ok ds
      ∧ (∀ d ∈ ds, d.tz = Option.none
          ∧ ∃ e ∈ entries, alookup "updated" e = some (.d d))
      ∧ (∀ e ∈ entries, ∀ dt : DT,
          alookup "updated" e = some (.d dt) → dt ∈ ds)
      ∧ (entries = [] → ds = []) := by
  induction entries with
  | nil => exact ⟨[], rfl, by simp, by simp, fun _ => rfl⟩
  | cons e es ih =>
      obtain ⟨dt, hdt, hdtz⟩ := h e (List.mem_cons_self e es)
      obtain ⟨ds, hok, hprops, hcover, _⟩ :=
        ih (fun e2 he2 => h e2 (List.mem_cons_of_mem e he2))
      refine ⟨dt :: ds, ?_, ?_, ?_, by simp⟩
      · rw [mapME]
        simp [entryUpdated, hdt, hok]
      · intro d hd
        rcases List.mem_cons.mp hd with rfl | hd2
        · exact ⟨hdtz, e, List.mem_cons_self e es, hdt⟩
        · obtain ⟨htz2, e2, he2, hl2⟩ := hprops d hd2
          exact ⟨htz2, e2, List.mem_cons_of_mem e he2, hl2⟩
      · intro e2 he2 dt2 hl2
        rcases List.mem_cons.mp he2 with rfl | he3
        · rw [hdt] at hl2
          have : dt = dt2 := by
            injection hl2 with h1
            injection h1
          exact this ▸ List.mem_cons_self dt ds
        · exact List.mem_cons_of_mem dt (hcover e2 he3 dt2 hl2)

/-- C1 (amended): when the feed metadata has no `updated` field and the
root-element loop succeeds, `add_root_elements` ends with a synthesized
`updated` element whose value is the chronological maximum of all
entries' `updated` timestamps TOGETHER WITH the current instant
(`isoformat() + 'Z'`); the current instant is therefore a lower bound
as well, and equals the value whenever there are no entries. -/
theorem c1_synthesized_updated (meta : List (String × AVal))
    (entries : List (List (String × AVal))) (now : DT) (es : List XmlEvent)
    (hupd : alookup "updated" meta = Option.none)
    (hloop : atomRootLoop meta = .ok es)
    (hnow : now.tz = Option.none)
    (hentries : ∀ e ∈ entries, ∃ dt : DT,
      alookup "updated" e = some (.d dt) ∧ dt.tz = Option.none) :
    ∃ m : DT,
      atomAddRootElements meta entries now
        = .ok (es ++ [XmlEvent.quick "updated" (some (m.isoformat ++ "Z")) []])
      ∧ now.micros ≤ m.micros
      ∧ (∀ e ∈ entries, ∀ dt : DT, alookup "updated" e = some (.d dt) →
          dt.micros ≤ m.micros)
      ∧ (m = now ∨ ∃ e ∈ entries, alookup "updated" e = some (.d m))
      ∧ (entries = [] → m = now) := by
  obtain ⟨ds, hds, hprops, hcover, hnil⟩ := mapME_entryUpdated entries hentries
  have hsome : (alookup "updated" meta).isSome = false := by simp [hupd]
  cases ds with
  | nil =>
      refine ⟨now, ?_, le_refl _, ?_, Or.inl rfl, fun _ => rfl⟩
      · simp [atomAddRootElements, hloop, atomSynthUpdated, hsome, hds,
          pyMaxDT]
      · intro e he dt hdt
        exact absurd (hcover e he dt hdt) (by simp)
  | cons d ds2 =>
      have hdprops := hprops d (List.mem_cons_self d ds2)
      obtain ⟨m, hmax, hmem, _, hdbound, hall⟩ :=
        pyMaxDT_naive (ds2 ++ [now]) d hdprops.1
          (by
            intro y hy
            rcases List.mem_append.mp hy with hy2 | hy3
            · exact (hprops y (List.mem_cons_of_mem d hy2)).1
            · simp at hy3
              exact hy3 ▸ hnow)
      have hnowle : now.micros ≤ m.micros :=
        hall now (List.mem_append.mpr (Or.inr (List.mem_cons_self now [])))
      refine ⟨m, ?_, hnowle, ?_, ?_, ?_⟩
      · simp [atomAddRootElements, hloop, atomSynthUpdated, hsome, hds,
          List.cons_append, hmax]
      · intro e he dt hdt
        rcases List.mem_cons.mp (hcover e he dt hdt) with rfl | hin
        · exact hdbound
        · exact hall dt (List.mem_append.mpr (Or.inl hin))
      · rcases hmem with rfl | hin
        · obtain ⟨_, e, he, hl⟩ := hprops m (List.mem_cons_self m ds2)
          exact Or.inr ⟨e, he, hl⟩
        · rcases List.mem_append.mp hin with hin2 | hin3
          · obtain ⟨_, e, he, hl⟩ :=
              hprops m (List.mem_cons_of_mem d hin2)
            exact Or.inr ⟨e, he, hl⟩
          · simp at hin3
            exact Or.inl hin3
      · intro hemp
        subst hemp
        exact absurd (hnil rfl) (by simp)

/-- C1 counterexample: a concrete Atom feed with one entry whose
`updated` (2020-05-01) is older than the current instant (2021-01-01).
The claim says the emitted value is the maximum of the entries'
timestamps (2020-05-01) with the current instant used only for an
entry-less feed; the code emits the current instant. -/
theorem c1_counterexample :
    ∃ f evs,
      atomInit
        [("title", AVal.s "T"), ("link", AVal.s "http://example.com/"),
         ("author", AVal.s "A")]
        "urn:feed"
        [[("title", AVal.s "E"),
          ("updated", AVal.d ⟨2020, 5, 1, 12, 0, 0, 0, Option.none⟩)]]
        (fun i => "urn:entry" ++ toString i) = .ok f
      ∧ alookup "updated" f.meta = Option.none
      ∧ f.entries.length = 1
      ∧ DT.isoformat ⟨2020, 5, 1, 12, 0, 0, 0, Option.none⟩ ++ "Z"
          = "2020-05-01T12:00:00Z"
      ∧ atomAddRootElements f.meta f.entries
          ⟨2021, 1, 1, 0, 0, 0, 0, Option.none⟩ = .ok evs
      ∧ (evs.filter fun ev =>
          match ev with
          | XmlEvent.quick "updated" _ _ => true
          | _ => false)
          = [XmlEvent.quick "updated" (some "2021-01-01T00:00:00Z") []]
      ∧ XmlEvent.quick "updated" (some "2020-05-01T12:00:00Z") [] ∉ evs := by
  refine ⟨_, _, rfl, rfl, rfl, by decide, rfl, by decide, by decide⟩

/-- Closed instance of `c1_synthesized_updated` at a one-field feed
with no entries. -/
theorem c1_synthesized_updated_witness :
    ∃ m : DT,
      atomAddRootElements [("title", AVal.s "t")] [] sampleNow
        = .ok ([XmlEvent.quick "title" (some "t") []]
            ++ [XmlEvent.quick "updated" (some (m.isoformat ++ "Z")) []])
      ∧ sampleNow.micros ≤ m.micros
      ∧ (∀ e ∈ ([] : List (List (String × AVal))), ∀ dt : DT,
          alookup "updated" e = some (.d dt) → dt.micros ≤ m.micros)
      ∧ (m = sampleNow ∨ ∃ e ∈ ([] : List (List (String × AVal))),
          alookup "updated" e = some (.d m))
      ∧ (([] : List (List (String × AVal))) = [] → m = sampleNow) :=
  c1_synthesized_updated [("title", AVal.s "t")] [] sampleNow
    [XmlEvent.quick "title" (some "t") []] rfl rfl rfl (by simp)
/-!
## Support for the C2 analysis: spec-side failure predicates and
stability lemmas for `prepare_entry`
-/

/-- A `summary`/`content` value the normalization cannot process:
present (after minimization) but not a dict. -/
def tcBad (key : String) (l : List (String × AVal)) : Prop :=
  ∃ v, alookup key l = some v ∧ ∀ d, v ≠ AVal.dict d

/-- An iterated nested record failing `has_key(attr)`: a dict without
the attribute, or a non-dict (which has no `has_key`). -/
def nestedItemBad (attr : String) : AVal → Prop
  | .dict d => alookup attr d = Option.none
  | _ => True

/-- A nested-record field failing validation: present and either not
iterable (`None`, datetime), or yielding an offending item (dicts
iterate over their keys and nonempty strings over their characters, so
those offend whenever nonempty). -/
def nestedBad (key attr : String) (l : List (String × AVal)) : Prop :=
  ∃ v, alookup key l = some v ∧
    match v with
    | .list items => ∃ it ∈ items, nestedItemBad attr it
    | .dict entries => entries ≠ []
    | .s str => str ≠ ""
    | _ => True

/-- Looking up a key in an association list headed by another key skips
the head. -/
theorem alookup_cons_ne (k : String) (p : String × AVal)
    (l : List (String × AVal)) (hp : p.1 ≠ k) :
    alookup k (p :: l) = alookup k l := by
  simp [alookup, List.find?_cons_of_neg, hp]

/-- Looking up the key of the head finds the head. -/
theorem alookup_cons_self (k : String) (p : String × AVal)
    (l : List (String × AVal)) (hp : p.1 = k) :
    alookup k (p :: l) = some p.2 := by
  simp [alookup, List.find?_cons_of_pos, hp]

/-- Removing one key leaves every other key's lookup unchanged. -/
theorem alookup_aremove_ne (key k : String) (hk : k ≠ key) :
    ∀ l : List (String × AVal), alookup k (aremove key l) = alookup k l := by
  intro l
  induction l with
  | nil => rfl
  | cons p ps ih =>
      by_cases hp : p.1 = key
      · have h2 : p.1 ≠ k := by rw [hp]; exact fun h => hk h.symm
        rw [show aremove key (p :: ps) = aremove key ps by
              simp [aremove, List.filter_cons, hp],
            ih, alookup_cons_ne k p ps h2]
      · rw [show aremove key (p :: ps) = p :: aremove key ps by
              simp [aremove, List.filter_cons, hp]]
        by_cases hpk : p.1 = k
        · rw [alookup_cons_self k p _ hpk, alookup_cons_self k p ps hpk]
        · rw [alookup_cons_ne k p _ hpk, ih, alookup_cons_ne k p ps hpk]

/-- Appending a binding for another key leaves a key's lookup
unchanged. -/
theorem alookup_append_ne (key k : String) (v : AVal) (hk : k ≠ key) :
    ∀ l : List (String × AVal), alookup k (l ++ [(key, v)]) = alookup k l := by
  intro l
  induction l with
  | nil =>
      rw [List.nil_append,
        alookup_cons_ne k (key, v) [] (fun h => hk h.symm)]
  | cons p ps ih =>
      rw [List.cons_append]
      by_cases hpk : p.1 = k
      · rw [alookup_cons_self k p _ hpk, alookup_cons_self k p ps hpk]
      · rw [alookup_cons_ne k p _ hpk, ih, alookup_cons_ne k p ps hpk]

/-- In-place replacement of one key's value leaves every other key's
lookup unchanged. -/
theorem alookup_map_set_ne (key k : String) (v : AVal) (hk : k ≠ key) :
    ∀ l : List (String × AVal),
      alookup k (l.map (fun p => if p.1 = key then (key, v) else p))
        = alookup k l := by
  intro l
  induction l with
  | nil => rfl
  | cons p ps ih =>
      rw [List.map_cons]
      by_cases hp : p.1 = key
      · have h2 : p.1 ≠ k := by rw [hp]; exact fun h => hk h.symm
        rw [if_pos hp, alookup_cons_ne k (key, v) _ (fun h => hk h.symm),
          ih, alookup_cons_ne k p ps h2]
      · rw [if_neg hp]
        by_cases hpk : p.1 = k
        · rw [alookup_cons_self k p _ hpk, alookup_cons_self k p ps hpk]
        · rw [alookup_cons_ne k p _ hpk, ih, alookup_cons_ne k p ps hpk]

/-- Replacing one key's value (whether in place or appended) leaves
every other key's lookup unchanged. -/
theorem alookup_aset_ne (key k : String) (v : AVal) (hk : k ≠ key)
    (l : List (String × AVal)) : alookup k (aset key v l) = alookup k l := by
  unfold aset
  split
  · exact alookup_map_set_ne key k v hk l
  · exact alookup_append_ne key k v hk l

/-- The `summary`/`content` drop step fails exactly on a present
non-dict value. -/
theorem dropTC_error_iff (key : String) (l : List (String × AVal)) :
    (∃ e, dropEmptyTextConstruct key l = .error e) ↔ tcBad key l := by
  cases hl : alookup key l with
  | none =>
      simp only [dropEmptyTextConstruct, hl, tcBad]
      constructor
      · intro ⟨e, he⟩
        cases he
      · intro ⟨v2, hv2, _⟩
        cases hv2
  | some v =>
      cases v with
      | dict d =>
          simp only [dropEmptyTextConstruct, hl, tcBad]
          constructor
          · intro ⟨e, he⟩
            split at he <;> cases he
          · intro ⟨v2, hv2, hnd⟩
            injection hv2 with h3
            exact absurd h3.symm (hnd d)
      | null =>
          simp only [dropEmptyTextConstruct, hl, tcBad]
          exact ⟨fun _ => ⟨AVal.null, rfl, fun d h => by cases h⟩,
            fun _ => ⟨_, rfl⟩⟩
      | s str =>
          simp only [dropEmptyTextConstruct, hl, tcBad]
          exact ⟨fun _ => ⟨AVal.s str, rfl, fun d h => by cases h⟩,
            fun _ => ⟨_, rfl⟩⟩
      | d dt =>
          simp only [dropEmptyTextConstruct, hl, tcBad]
          exact ⟨fun _ => ⟨AVal.d dt, rfl, fun d h => by cases h⟩,
            fun _ => ⟨_, rfl⟩⟩
      | list items =>
          simp only [dropEmptyTextConstruct, hl, tcBad]
          exact ⟨fun _ => ⟨AVal.list items, rfl, fun d h => by cases h⟩,
            fun _ => ⟨_, rfl⟩⟩

/-- A successful `summary`/`content` drop leaves every other key's
lookup unchanged. -/
theorem dropTC_ok_lookup (key : String) (l l2 : List (String × AVal))
    (h : dropEmptyTextConstruct key l = .ok l2) (k : String) (hk : k ≠ key) :
    alookup k l2 = alookup k l := by
  cases hl : alookup key l with
  | none =>
      simp only [dropEmptyTextConstruct, hl] at h
      injection h with h2
      rw [← h2]
  | some v =>
      cases v with
      | dict d =>
          simp only [dropEmptyTextConstruct, hl] at h
          split at h
          · injection h with h2; rw [← h2]
          · injection h with h2
            rw [← h2]
            exact alookup_aremove_ne key k hk l
      | null => simp only [dropEmptyTextConstruct, hl] at h; cases h
      | s str => simp only [dropEmptyTextConstruct, hl] at h; cases h
      | d dt => simp only [dropEmptyTextConstruct, hl] at h; cases h
      | list items => simp only [dropEmptyTextConstruct, hl] at h; cases h

/-- `tcBad` depends only on the key's own lookup. -/
theorem tcBad_congr (key : String) (l l2 : List (String × AVal))
    (h : alookup key l2 = alookup key l) : tcBad key l2 ↔ tcBad key l := by
  unfold tcBad
  rw [h]

/-- `nestedBad` depends only on the key's own lookup. -/
theorem nestedBad_congr (key attr : String) (l l2 : List (String × AVal))
    (h : alookup key l2 = alookup key l) :
    nestedBad key attr l2 ↔ nestedBad key attr l := by
  unfold nestedBad
  rw [h]

/-- Iterating side conditions fails exactly when some element fails. -/
theorem forME_error_iff {α : Type} (f : α → Except String Unit) :
    ∀ l : List α, (∃ e, forME f l = .error e) ↔ ∃ x ∈ l, ∃ e, f x = .error e := by
  intro l
  induction l with
  | nil => simp [forME]
  | cons a as ih =>
      rw [forME]
      cases hfa : f a with
      | error e =>
          simp only [hfa, exceptErrorBind]
          constructor
          · intro _; exact ⟨a, List.mem_cons_self a as, e, hfa⟩
          · intro _; exact ⟨e, rfl⟩
      | ok u =>
          cases u
          simp only [hfa, exceptOkBind]
          rw [ih]
          constructor
          · intro ⟨x, hx, he⟩
            exact ⟨x, List.mem_cons_of_mem a hx, he⟩
          · intro ⟨x, hx, he⟩
            rcases List.mem_cons.mp hx with rfl | hx2
            · rcases he with ⟨e, he⟩
              rw [hfa] at he
              cases he
            · exact ⟨x, hx2, he⟩

/-- One nested-record item check fails exactly on a bad item. -/
theorem checkRecordItem_error_iff (key attr : String) (it : AVal) :
    (∃ e, checkRecordItem key attr it = .error e) ↔ nestedItemBad attr it := by
  unfold checkRecordItem nestedItemBad
  cases it with
  | dict d =>
      cases hd : alookup attr d with
      | none => simp [hd]
      | some v =>
          simp [hd]
          exact fun x h => Except.noConfusion h
  | null => simp
  | s v => simp
  | d v => simp
  | list items => simp

/-- The nested-record validation fails exactly on a bad field. -/
theorem checkNested_error_iff (key attr : String) (l : List (String × AVal)) :
    (∃ e, checkNestedRecords key attr l = .error e) ↔ nestedBad key attr l := by
  cases hl : alookup key l with
  | none =>
      simp only [checkNestedRecords, hl, nestedBad]
      constructor
      · intro ⟨e, he⟩
        cases he
      · intro ⟨v, hv, _⟩
        cases hv
  | some v =>
      cases v with
      | list items =>
          simp only [checkNestedRecords, hl, iterAVal, exceptOkBind, nestedBad]
          rw [forME_error_iff]
          constructor
          · intro ⟨x, hx, he⟩
            exact ⟨.list items, rfl,
              ⟨x, hx, (checkRecordItem_error_iff key attr x).mp he⟩⟩
          · intro ⟨v2, hv2, hmatch⟩
            injection hv2 with h3
            subst h3
            obtain ⟨it, hit, hbad⟩ := hmatch
            exact ⟨it, hit, (checkRecordItem_error_iff key attr it).mpr hbad⟩
      | dict entries =>
          simp only [checkNestedRecords, hl, iterAVal, exceptOkBind, nestedBad]
          rw [forME_error_iff]
          constructor
          · intro ⟨x, hx, _⟩
            refine ⟨.dict entries, rfl, ?_⟩
            intro hemp
            subst hemp
            simp at hx
          · intro ⟨v2, hv2, hne⟩
            injection hv2 with h3
            subst h3
            cases entries with
            | nil => exact absurd rfl hne
            | cons p ps =>
                exact ⟨.s p.1, by simp, _, rfl⟩
      | s str =>
          simp only [checkNestedRecords, hl, iterAVal, exceptOkBind, nestedBad]
          rw [forME_error_iff]
          constructor
          · intro ⟨x, hx, _⟩
            refine ⟨.s str, rfl, ?_⟩
            intro hemp
            subst hemp
            simp at hx
          · intro ⟨v2, hv2, hne⟩
            injection hv2 with h3
            subst h3
            cases hchars : str.toList with
            | nil =>
                refine absurd ?_ hne
                cases str with
                | mk data => cases hchars; rfl
            | cons c cs =>
                exact ⟨.s (String.mk [c]), by simp [hchars], _, rfl⟩
      | null =>
          simp only [checkNestedRecords, hl, iterAVal, exceptErrorBind,
            nestedBad]
          exact ⟨fun _ => ⟨.null, rfl, trivial⟩, fun _ => ⟨_, rfl⟩⟩
      | d dt =>
          simp only [checkNestedRecords, hl, iterAVal, exceptErrorBind,
            nestedBad]
          exact ⟨fun _ => ⟨.d dt, rfl, trivial⟩, fun _ => ⟨_, rfl⟩⟩

/-- A field that passed the nested-record validation is a list, a dict
or a string (the iterables `tuple()` accepts in the promotion step). -/
theorem checkNested_ok_value (key attr : String) (l : List (String × AVal))
    (v : AVal) (hok : checkNestedRecords key attr l = .ok ())
    (hl : alookup key l = some v) :
    (∃ items, v = .list items) ∨ (∃ d, v = .dict d) ∨ (∃ s, v = .s s) := by
  cases v with
  | list items => exact Or.inl ⟨items, rfl⟩
  | dict d => exact Or.inr (Or.inl ⟨d, rfl⟩)
  | s str => exact Or.inr (Or.inr ⟨str, rfl⟩)
  | null =>
      simp only [checkNestedRecords, hl, iterAVal, exceptErrorBind] at hok
      cases hok
  | d dt =>
      simp only [checkNestedRecords, hl, iterAVal, exceptErrorBind] at hok
      cases hok

/-- The singular-to-plural promotion succeeds whenever the plural value
(if any) is an iterable `tuple()` accepts. -/
theorem promoteSingular_ok (sing plural : String) (mk : AVal → AVal)
    (l : List (String × AVal))
    (hv : ∀ v, alookup plural l = some v →
      (∃ items, v = .list items) ∨ (∃ d, v = .dict d) ∨ (∃ s, v = .s s)) :
    ∃ l2, promoteSingular sing plural mk l = .ok l2 := by
  unfold promoteSingular
  cases hs : alookup sing l with
  | none => exact ⟨l, rfl⟩
  | some v0 =>
      cases hp : alookup plural l with
      | none => exact ⟨_, rfl⟩
      | some v =>
          rcases hv v hp with ⟨items, rfl⟩ | ⟨d, rfl⟩ | ⟨s, rfl⟩ <;>
            exact ⟨_, rfl⟩

/-- The promotion leaves every key other than the singular and plural
names unchanged. -/
theorem promoteSingular_ok_lookup (sing plural : String) (mk : AVal → AVal)
    (l l2 : List (String × AVal))
    (h : promoteSingular sing plural mk l = .ok l2)
    (k : String) (hk1 : k ≠ sing) (hk2 : k ≠ plural) :
    alookup k l2 = alookup k l := by
  unfold promoteSingular at h
  cases hs : alookup sing l with
  | none =>
      rw [hs] at h
      injection h with h2
      rw [← h2]
  | some v0 =>
      rw [hs] at h
      cases hp : alookup plural l with
      | none =>
          rw [hp] at h
          injection h with h2
          rw [← h2, alookup_aremove_ne sing k hk1,
            alookup_aset_ne plural k _ hk2]
      | some v =>
          rw [hp] at h
          cases v with
          | list items =>
              injection h with h2
              rw [← h2, alookup_aremove_ne sing k hk1,
                alookup_aset_ne plural k _ hk2]
          | dict entries =>
              injection h with h2
              rw [← h2, alookup_aremove_ne sing k hk1,
                alookup_aset_ne plural k _ hk2]
          | s str =>
              injection h with h2
              rw [← h2, alookup_aremove_ne sing k hk1,
                alookup_aset_ne plural k _ hk2]
          | null => cases h
          | d dt => cases h

/-- The guarded promotion succeeds whenever the plural value (if any)
is an acceptable iterable, and leaves all other keys unchanged. -/
theorem promoteStep_ok (sing plural : String) (mk : AVal → AVal)
    (l : List (String × AVal))
    (hv : ∀ v, alookup plural l = some v →
      (∃ items, v = .list items) ∨ (∃ d, v = .dict d) ∨ (∃ s, v = .s s)) :
    ∃ l2, promoteStep sing plural mk l = .ok l2
      ∧ ∀ k, k ≠ sing → k ≠ plural → alookup k l2 = alookup k l := by
  unfold promoteStep
  cases hs : alookup sing l with
  | none => exact ⟨l, rfl, fun _ _ _ => rfl⟩
  | some v0 =>
      obtain ⟨l2, h2⟩ := promoteSingular_ok sing plural mk l hv
      exact ⟨l2, h2,
        fun k hk1 hk2 => promoteSingular_ok_lookup sing plural mk l l2 h2
          k hk1 hk2⟩
/-- `prepare_entry` fails exactly when, on the minimized entry dict:
a `summary`/`content` value is not a dict, a nested `links`/`authors`
record fails validation, `title` or `updated` is absent, or the feed's
`authors` and the entry's `authors`/`author` are all falsy. -/
theorem atomPrepareEntry_error_iff (meta kwargs : List (String × AVal))
    (fid : String) :
    (∃ err, atomPrepareEntry meta kwargs fid = .error err) ↔
      (tcBad "summary" (minimized kwargs)
       ∨ tcBad "content" (minimized kwargs)
       ∨ nestedBad "links" "href" (minimized kwargs)
       ∨ nestedBad "authors" "name" (minimized kwargs)
       ∨ alookup "title" (minimized kwargs) = Option.none
       ∨ alookup "updated" (minimized kwargs) = Option.none
       ∨ (truthyO (alookup "authors" meta) = false
          ∧ truthyO (alookup "authors" (minimized kwargs)) = false
          ∧ truthyO (alookup "author" (minimized kwargs)) = false)) := by
  cases h1 : dropEmptyTextConstruct "summary" (minimized kwargs) with
  | error e =>
      refine iff_of_true ⟨e, by simp [atomPrepareEntry, h1]⟩
        (Or.inl ((dropTC_error_iff _ _).mp ⟨e, h1⟩))
  | ok l1 =>
  have hns : ¬ tcBad "summary" (minimized kwargs) := by
    rw [← dropTC_error_iff]
    rintro ⟨e, he⟩
    rw [h1] at he
    cases he
  have hlk1 : ∀ k, k ≠ "summary" →
      alookup k l1 = alookup k (minimized kwargs) :=
    fun k hk => dropTC_ok_lookup "summary" (minimized kwargs) l1 h1 k hk
  cases h2 : dropEmptyTextConstruct "content" l1 with
  | error e =>
      refine iff_of_true ⟨e, by simp [atomPrepareEntry, h1, h2]⟩
        (Or.inr (Or.inl ((tcBad_congr "content" (minimized kwargs) l1
          (hlk1 "content" (by decide))).mp
          ((dropTC_error_iff _ _).mp ⟨e, h2⟩))))
  | ok l2 =>
  have hnc : ¬ tcBad "content" (minimized kwargs) := by
    intro hb
    obtain ⟨e, he⟩ := (dropTC_error_iff "content" l1).mpr
      ((tcBad_congr "content" (minimized kwargs) l1
        (hlk1 "content" (by decide))).mpr hb)
    rw [h2] at he
    cases he
  have hlk2 : ∀ k, k ≠ "summary" → k ≠ "content" →
      alookup k l2 = alookup k (minimized kwargs) :=
    fun k hk1 hk2 => (dropTC_ok_lookup "content" l1 l2 h2 k hk2).trans
      (hlk1 k hk1)
  cases h3 : checkNestedRecords "links" "href" l2 with
  | error e =>
      refine iff_of_true ⟨e, by simp [atomPrepareEntry, h1, h2, h3]⟩
        (Or.inr (Or.inr (Or.inl
          ((nestedBad_congr "links" "href" (minimized kwargs) l2
            (hlk2 "links" (by decide) (by decide))).mp
            ((checkNested_error_iff _ _ _).mp ⟨e, h3⟩)))))
  | ok u3 =>
  cases u3
  have hnl : ¬ nestedBad "links" "href" (minimized kwargs) := by
    intro hb
    obtain ⟨e, he⟩ := (checkNested_error_iff "links" "href" l2).mpr
      ((nestedBad_congr "links" "href" (minimized kwargs) l2
        (hlk2 "links" (by decide) (by decide))).mpr hb)
    rw [h3] at he
    cases he
  cases h4 : checkNestedRecords "authors" "name" l2 with
  | error e =>
      refine iff_of_true ⟨e, by simp [atomPrepareEntry, h1, h2, h3, h4]⟩
        (Or.inr (Or.inr (Or.inr (Or.inl
          ((nestedBad_congr "authors" "name" (minimized kwargs) l2
            (hlk2 "authors" (by decide) (by decide))).mp
            ((checkNested_error_iff _ _ _).mp ⟨e, h4⟩))))))
  | ok u4 =>
  cases u4
  have hna : ¬ nestedBad "authors" "name" (minimized kwargs) := by
    intro hb
    obtain ⟨e, he⟩ := (checkNested_error_iff "authors" "name" l2).mpr
      ((nestedBad_congr "authors" "name" (minimized kwargs) l2
        (hlk2 "authors" (by decide) (by decide))).mpr hb)
    rw [h4] at he
    cases he
  cases h5 : (alookup "title" l2).isSome with
  | false =>
      refine iff_of_true ⟨"AssertionError: title",
          by simp [atomPrepareEntry, h1, h2, h3, h4, h5]⟩
        (Or.inr (Or.inr (Or.inr (Or.inr (Or.inl ?_)))))
      rw [← hlk2 "title" (by decide) (by decide)]
      exact Option.not_isSome_iff_eq_none.mp (by simp [h5])
  | true =>
  have ht : ¬ alookup "title" (minimized kwargs) = Option.none := by
    rw [← hlk2 "title" (by decide) (by decide)]
    intro hn
    rw [hn] at h5
    cases h5
  cases h6 : (alookup "updated" l2).isSome with
  | false =>
      refine iff_of_true ⟨"AssertionError: updated",
          by simp [atomPrepareEntry, h1, h2, h3, h4, h5, h6]⟩
        (Or.inr (Or.inr (Or.inr (Or.inr (Or.inr (Or.inl ?_))))))
      rw [← hlk2 "updated" (by decide) (by decide)]
      exact Option.not_isSome_iff_eq_none.mp (by simp [h6])
  | true =>
  have hu : ¬ alookup "updated" (minimized kwargs) = Option.none := by
    rw [← hlk2 "updated" (by decide) (by decide)]
    intro hn
    rw [hn] at h6
    cases h6
  have hok : (truthyO (alookup "authors" meta) = true
      ∨ (truthyO (alookup "authors" l2)
          || truthyO (alookup "author" l2)) = true) →
      ∃ lf, atomPrepareEntry meta kwargs fid = .ok lf := by
    intro hpass
    have hid : alookup "links"
        (if (alookup "id" l2).isSome then l2 else l2 ++ [("id", AVal.s fid)])
        = alookup "links" l2 := by
      split
      · rfl
      · exact alookup_append_ne "id" "links" _ (by decide) l2
    have hida : alookup "authors"
        (if (alookup "id" l2).isSome then l2 else l2 ++ [("id", AVal.s fid)])
        = alookup "authors" l2 := by
      split
      · rfl
      · exact alookup_append_ne "id" "authors" _ (by decide) l2
    obtain ⟨l4, hp1, hst1⟩ := promoteStep_ok "link" "links"
      (mkLinkDict "alternate")
      (if (alookup "id" l2).isSome then l2 else l2 ++ [("id", AVal.s fid)])
      (by
        intro v hv
        rw [hid] at hv
        exact checkNested_ok_value "links" "href" l2 v h3 hv)
    obtain ⟨l5, hp2, _⟩ := promoteStep_ok "author" "authors" mkAuthorDict l4
      (by
        intro v hv
        rw [hst1 "authors" (by decide) (by decide), hida] at hv
        exact checkNested_ok_value "authors" "name" l2 v h4 hv)
    refine ⟨l5, ?_⟩
    rcases hpass with h7 | h8
    · simp [atomPrepareEntry, h1, h2, h3, h4, h5, h6, h7, hp1, hp2]
    · cases h7 : truthyO (alookup "authors" meta) with
      | true => simp [atomPrepareEntry, h1, h2, h3, h4, h5, h6, h7, hp1, hp2]
      | false =>
          have h8d := Bool.or_eq_true_iff.mp h8
          simp [atomPrepareEntry, h1, h2, h3, h4, h5, h6, h7, hp1, hp2]
          intro hfa
          rcases h8d with h | h
          · rw [hfa] at h
            cases h
          · exact h
  cases h7 : truthyO (alookup "authors" meta) with
  | true =>
      obtain ⟨lf, hokk⟩ := hok (Or.inl h7)
      refine iff_of_false ?_ ?_
      · rintro ⟨err, herr⟩
        rw [hokk] at herr
        cases herr
      · rintro (hb | hb | hb | hb | hb | hb | ⟨hb1, _, _⟩)
        exacts [hns hb, hnc hb, hnl hb, hna hb, ht hb, hu hb,
          Bool.noConfusion hb1]
  | false =>
  cases h8 : (truthyO (alookup "authors" l2)
      || truthyO (alookup "author" l2)) with
  | true =>
      obtain ⟨lf, hokk⟩ := hok (Or.inr h8)
      have hor : truthyO (alookup "authors" (minimized kwargs)) = true
          ∨ truthyO (alookup "author" (minimized kwargs)) = true := by
        rcases Bool.or_eq_true_iff.mp h8 with h | h
        · exact Or.inl (by
            rw [← hlk2 "authors" (by decide) (by decide)]
            exact h)
        · exact Or.inr (by
            rw [← hlk2 "author" (by decide) (by decide)]
            exact h)
      refine iff_of_false ?_ ?_
      · rintro ⟨err, herr⟩
        rw [hokk] at herr
        cases herr
      · rintro (hb | hb | hb | hb | hb | hb | ⟨_, hb2, hb3⟩)
        exacts [hns hb, hnc hb, hnl hb, hna hb, ht hb, hu hb,
          by rcases hor with h | h
             · rw [h] at hb2; cases hb2
             · rw [h] at hb3; cases hb3]
  | false =>
      have hb2 : truthyO (alookup "authors" (minimized kwargs)) = false := by
        rw [← hlk2 "authors" (by decide) (by decide)]
        exact (Bool.or_eq_false_iff.mp h8).1
      have hb3 : truthyO (alookup "author" (minimized kwargs)) = false := by
        rw [← hlk2 "author" (by decide) (by decide)]
        exact (Bool.or_eq_false_iff.mp h8).2
      refine iff_of_true ⟨"AssertionError: author",
          by simp [atomPrepareEntry, h1, h2, h3, h4, h5, h6, h7,
            (Bool.or_eq_false_iff.mp h8).1, (Bool.or_eq_false_iff.mp h8).2]⟩
        (Or.inr (Or.inr (Or.inr (Or.inr (Or.inr (Or.inr ⟨rfl, hb2, hb3⟩))))))
/-- C2 (amended): adding an entry to an Atom feed fails (with a
precondition error, leaving the stored feed untouched since the append
follows the preparation) exactly when, on the null-stripped entry dict:
a `summary`/`content` field is not a text-construct dict, a nested
link lacks `href` or a nested author lacks `name` (or a nested-record
field is not a list of records), the entry lacks a title, lacks an
`updated` timestamp, or the feed's `authors` and the entry's
`authors`/`author` are all absent or empty; otherwise it appends
exactly one prepared entry. -/
theorem c2_add_entry_characterization (f : AtomFeedObj)
    (kwargs : List (String × AVal)) (fid : String) :
    ((∃ err, atomAddEntry f kwargs fid = .error err) ↔
      (tcBad "summary" (minimized kwargs)
       ∨ tcBad "content" (minimized kwargs)
       ∨ nestedBad "links" "href" (minimized kwargs)
       ∨ nestedBad "authors" "name" (minimized kwargs)
       ∨ alookup "title" (minimized kwargs) = Option.none
       ∨ alookup "updated" (minimized kwargs) = Option.none
       ∨ (truthyO (alookup "authors" f.meta) = false
          ∧ truthyO (alookup "authors" (minimized kwargs)) = false
          ∧ truthyO (alookup "author" (minimized kwargs)) = false)))
    ∧ (∀ f2, atomAddEntry f kwargs fid = .ok f2 →
        f2.meta = f.meta
        ∧ ∃ en, atomPrepareEntry f.meta kwargs fid = .ok en
            ∧ f2.entries = f.entries ++ [en]) := by
  constructor
  · rw [← atomPrepareEntry_error_iff f.meta kwargs fid]
    constructor
    · rintro ⟨err, herr⟩
      cases hp : atomPrepareEntry f.meta kwargs fid with
      | error e => exact ⟨e, rfl⟩
      | ok en =>
          rw [atomAddEntry, hp] at herr
          cases herr
    · rintro ⟨err, herr⟩
      exact ⟨err, by rw [atomAddEntry, herr]; rfl⟩
  · intro f2 hf2
    cases hp : atomPrepareEntry f.meta kwargs fid with
    | error e =>
        rw [atomAddEntry, hp] at hf2
        cases hf2
    | ok en =>
        rw [atomAddEntry, hp] at hf2
        injection hf2 with h2
        subst h2
        exact ⟨rfl, en, rfl, rfl⟩

/-- C2 counterexample: a concrete Atom feed (which declares an author)
and an entry that has a title, has an `updated` timestamp, and is added
to that authored feed — yet `add_entry` fails, because the entry's
nested link record lacks an `href`.  The claim's three failure causes
are all absent, refuting "otherwise it appends exactly one entry". -/
theorem c2_counterexample :
    (alookup "title" (minimized
      [("title", AVal.s "E"),
       ("updated", AVal.d ⟨2020, 1, 1, 0, 0, 0, 0, Option.none⟩),
       ("links", AVal.list [AVal.dict [("rel", AVal.s "alternate")]])])).isSome
      = true
    ∧ (alookup "updated" (minimized
      [("title", AVal.s "E"),
       ("updated", AVal.d ⟨2020, 1, 1, 0, 0, 0, 0, Option.none⟩),
       ("links", AVal.list [AVal.dict [("rel", AVal.s "alternate")]])])).isSome
      = true
    ∧ truthyO (alookup "authors"
        [("title", AVal.s "T"),
         ("authors", AVal.list [AVal.dict [("name", AVal.s "A")]])]) = true
    ∧ atomAddEntry
        { meta := [("title", AVal.s "T"),
                   ("authors", AVal.list [AVal.dict [("name", AVal.s "A")]])],
          entries := [] }
        [("title", AVal.s "E"),
         ("updated", AVal.d ⟨2020, 1, 1, 0, 0, 0, 0, Option.none⟩),
         ("links", AVal.list [AVal.dict [("rel", AVal.s "alternate")]])]
        "urn:x"
        = .error "AssertionError: links href" :=
  ⟨rfl, rfl, rfl, rfl⟩

/-- Closed instance of `c2_add_entry_characterization`: adding the
empty entry mapping to a one-field feed fails, so the characterizing
disjunction holds there (the entry lacks a title, among others). -/
theorem c2_add_entry_witness :
    tcBad "summary" (minimized [])
    ∨ tcBad "content" (minimized [])
    ∨ nestedBad "links" "href" (minimized [])
    ∨ nestedBad "authors" "name" (minimized [])
    ∨ alookup "title" (minimized []) = Option.none
    ∨ alookup "updated" (minimized []) = Option.none
    ∨ (truthyO (alookup "authors"
          [("title", AVal.s "T")] : Option AVal) = false
       ∧ truthyO (alookup "authors" (minimized [])) = false
       ∧ truthyO (alookup "author" (minimized [])) = false) :=
  (c2_add_entry_characterization
    { meta := [("title", AVal.s "T")], entries := [] } [] "urn:x").1.mp
    ⟨"AssertionError: title", rfl⟩
